import Mathlib

/-!
# Verification of the PlotMathEngine core (src/src/services/PlotMathEngine.ts)

This file gives a shallow embedding of the two components of the plotting core:

* `parseBlueprint` — the YAML-like blueprint text parser;
* `generateChartConfig` — the expression/sampling engine (explicit sweep and
  implicit-mode Marching Squares contour extraction).

Modelling conventions:

* JavaScript numbers are modelled by `JNum`: an exact rational together with
  the three non-finite values `NaN`, `+Infinity`, `-Infinity`.  IEEE-754
  rounding and signed zero are not modelled; every claim under study is about
  exact arithmetic identities, sign tests and the NaN/Infinity control flow,
  none of which depend on rounding.
* The source evaluates equations by compiling strings with `new Function`.
  Arithmetic expressions are modelled by the AST `Expr` (number literals,
  identifiers, unary minus, `+ - * / **`), and the JS engine's
  construction-time syntax check is modelled by an abstract
  `compile : String → Except String Expr` parameter: `.error` corresponds to
  a `SyntaxError` thrown while constructing the evaluator function.
  A runtime `ReferenceError` ("x is not defined") is modelled by
  `evalExpr` returning `.error`.
* The math sandbox of the source binds library *functions* (`sin`, `cos`, …)
  and the two irrational constants `PI`, `E`.  Function values and irrational
  constants are not representable in a rational value model, so the value
  context here contains only `x`, `y`, the parameters and the derived
  variables; expressions reach the library only through the arithmetic
  operators modelled in `Expr`.  No claim under study depends on a
  transcendental library function.
-/

/-- A JavaScript number: an exact rational, or one of the non-finite values. -/
inductive JNum where
  | fin (q : ℚ)
  | posInf
  | negInf
  | nan
deriving DecidableEq, Repr

namespace JNum

/-- JS unary minus. -/
def jneg : JNum → JNum
  | fin q => fin (-q)
  | posInf => negInf
  | negInf => posInf
  | nan => nan

/-- JS addition (no signed zero; `∞ + (−∞) = NaN`). -/
def jadd : JNum → JNum → JNum
  | fin a, fin b => fin (a + b)
  | fin _, posInf => posInf
  | fin _, negInf => negInf
  | posInf, fin _ => posInf
  | negInf, fin _ => negInf
  | posInf, posInf => posInf
  | negInf, negInf => negInf
  | posInf, negInf => nan
  | negInf, posInf => nan
  | nan, _ => nan
  | _, nan => nan

/-- JS subtraction: `a - b = a + (-b)`. -/
def jsub (a b : JNum) : JNum := jadd a (jneg b)

/-- JS multiplication (`∞ * 0 = NaN`). -/
def jmul : JNum → JNum → JNum
  | fin a, fin b => fin (a * b)
  | fin a, posInf => if a = 0 then nan else if 0 < a then posInf else negInf
  | fin a, negInf => if a = 0 then nan else if 0 < a then negInf else posInf
  | posInf, fin b => if b = 0 then nan else if 0 < b then posInf else negInf
  | negInf, fin b => if b = 0 then nan else if 0 < b then negInf else posInf
  | posInf, posInf => posInf
  | negInf, negInf => posInf
  | posInf, negInf => negInf
  | negInf, posInf => negInf
  | nan, _ => nan
  | _, nan => nan

/-- JS division (`x/0 = ±∞` for `x ≠ 0`, `0/0 = NaN`, `∞/∞ = NaN`;
signed zero is not modelled, so `x / ±∞ = 0`). -/
def jdiv : JNum → JNum → JNum
  | fin a, fin b =>
      if b = 0 then (if a = 0 then nan else if 0 < a then posInf else negInf)
      else fin (a / b)
  | fin _, posInf => fin 0
  | fin _, negInf => fin 0
  | posInf, fin b => if 0 ≤ b then posInf else negInf
  | negInf, fin b => if 0 ≤ b then negInf else posInf
  | posInf, posInf => nan
  | posInf, negInf => nan
  | negInf, posInf => nan
  | negInf, negInf => nan
  | nan, _ => nan
  | _, nan => nan

/-- JS exponentiation `**`.  For a finite base and a finite *integer*
exponent the result is exact; a non-integer exponent generally produces an
irrational number, which a rational model cannot represent — that case is
mapped to `nan` (no claim under study evaluates a fractional exponent).
`x ** 0 = 1` for every `x`, including `NaN`, as in JS. -/
def jpow : JNum → JNum → JNum
  | _, fin 0 => fin 1
  | fin a, fin b =>
      if b.den = 1 then
        if 0 ≤ b.num then fin (a ^ b.num.toNat)
        else if a = 0 then posInf
        else fin (a ^ b.num)
      else nan
  | fin a, posInf =>
      if a = 1 ∨ a = -1 then nan else if -1 < a ∧ a < 1 then fin 0 else posInf
  | fin a, negInf =>
      if a = 1 ∨ a = -1 then nan else if -1 < a ∧ a < 1 then posInf else fin 0
  | posInf, fin b => if 0 < b then posInf else fin 0
  | negInf, fin b =>
      if 0 < b then (if b.den = 1 ∧ b.num % 2 = 1 then negInf else posInf)
      else fin 0
  | posInf, posInf => posInf
  | negInf, posInf => posInf
  | posInf, negInf => fin 0
  | negInf, negInf => fin 0
  | nan, _ => nan
  | _, nan => nan

/-- JS `v > 0` (false for `NaN`). -/
def jgt0 : JNum → Bool
  | fin q => decide (0 < q)
  | posInf => true
  | _ => false

/-- JS `a < b` (false whenever `NaN` is involved). -/
def jlt : JNum → JNum → Bool
  | fin a, fin b => decide (a < b)
  | fin _, posInf => true
  | negInf, fin _ => true
  | negInf, posInf => true
  | _, _ => false

/-- JS `a <= b` (false whenever `NaN` is involved). -/
def jle : JNum → JNum → Bool
  | fin a, fin b => decide (a ≤ b)
  | fin _, posInf => true
  | negInf, fin _ => true
  | negInf, posInf => true
  | posInf, posInf => true
  | negInf, negInf => true
  | _, _ => false

/-- `Math.abs`. -/
def jabs : JNum → JNum
  | fin q => fin |q|
  | nan => nan
  | _ => posInf

/-- JS `isNaN` on a number. -/
def jisNaN : JNum → Bool
  | nan => true
  | _ => false

end JNum

open JNum

/-!
## Arithmetic expressions and their evaluation

`Expr` models the constrained JS expression fragment the engine feeds to
`new Function`: number literals, identifiers, unary minus, and the binary
operators `+ - * / **`.  `evalExpr` models calling the generated function:
an identifier that is bound in neither the parameters, nor the variables,
nor `x`/`y` raises a `ReferenceError`, modelled as `.error`; operands are
evaluated left to right, as in JS.
-/

/-- Arithmetic expression AST (the fragment of JS expressions the engine
evaluates). -/
inductive Expr where
  | num (q : ℚ)
  | ident (name : String)
  | eneg (a : Expr)
  | eadd (a b : Expr)
  | esub (a b : Expr)
  | emul (a b : Expr)
  | ediv (a b : Expr)
  | epow (a b : Expr)
deriving DecidableEq, Repr

/-- An evaluation scope: name → numeric value, first match wins
(like the innermost JS binding). -/
abbrev Ctx := List (String × JNum)

/-- Scope lookup, first match wins. -/
def ctxFind : Ctx → String → Option JNum
  | [], _ => none
  | (k, v) :: rest, n => if k = n then some v else ctxFind rest n

/-- Evaluate an expression in a scope.  `.error` is a thrown
`ReferenceError` (the only runtime error the modelled fragment can raise). -/
def evalExpr (ctx : Ctx) : Expr → Except String JNum
  | .num q => .ok (fin q)
  | .ident n =>
      match ctxFind ctx n with
      | some v => .ok v
      | none => .error (n ++ " is not defined")
  | .eneg a => do pure (jneg (← evalExpr ctx a))
  | .eadd a b => do
      let va ← evalExpr ctx a
      let vb ← evalExpr ctx b
      pure (jadd va vb)
  | .esub a b => do
      let va ← evalExpr ctx a
      let vb ← evalExpr ctx b
      pure (jsub va vb)
  | .emul a b => do
      let va ← evalExpr ctx a
      let vb ← evalExpr ctx b
      pure (jmul va vb)
  | .ediv a b => do
      let va ← evalExpr ctx a
      let vb ← evalExpr ctx b
      pure (jdiv va vb)
  | .epow a b => do
      let va ← evalExpr ctx a
      let vb ← evalExpr ctx b
      pure (jpow va vb)

/-- The `varLogic` prelude of the generated function: each derived variable
is a `const <name> = <expr>;` statement, evaluated in declaration order, its
value visible to all later variables (and to the main equation). -/
def evalVars : Ctx → List (String × Expr) → Except String Ctx
  | ctx, [] => .ok ctx
  | ctx, (n, e) :: rest => do
      let v ← evalExpr ctx e
      evalVars ((n, v) :: ctx) rest

/-- The scope of the implicit-mode function
`new Function('x', 'y', ...paramKeys, ...mathKeys, body)`.
In JS, a later duplicate parameter shadows an earlier one, so the
parameters shadow `x`/`y`; with first-match-wins lookup that puts the
parameter list in front.  (The math library's function bindings are not
part of the numeric scope; see the header note.) -/
def baseCtx2D (params : Ctx) (px py : JNum) : Ctx :=
  params ++ [("y", py), ("x", px)]

/-- The scope of the explicit-mode function
`new Function('x', ...paramKeys, ...mathKeys, body)`. -/
def baseCtx1D (params : Ctx) (px : JNum) : Ctx :=
  params ++ [("x", px)]

/-!
## String utilities (JS semantics)

These model the JS string primitives the parser relies on: `trim`,
`split(/\r?\n/)`, `indexOf`/`substring` (as `breakFirst`), the
`/\{(.*)\}/` regex match (`braceMatch`, first `{` to last `}`), global
removal of quote characters, `Number(...)` coercion and `parseInt`.
Exotic unicode whitespace and the `0b`/`0o` numeric prefixes of `Number`
are not modelled (no claim depends on them).
-/

/-- Curly/quote characters, written via code points to keep the source
free of delicate character literals. -/
def lbraceChar : Char := Char.ofNat 123

/-- Closing curly brace character. -/
def rbraceChar : Char := Char.ofNat 125

/-- Double-quote character. -/
def dquoteChar : Char := Char.ofNat 34

/-- Single-quote character. -/
def squoteChar : Char := Char.ofNat 39

/-- The JS `\s` class, restricted to the ASCII range (plus NBSP). -/
def jsIsSpace (c : Char) : Bool :=
  c = ' ' ∨ c = '\t' ∨ c = '\n' ∨ c = '\x0d' ∨ c = '\x0b' ∨ c = '\x0c' ∨ c = '\xa0'

/-- JS `String.prototype.trim` on a character list. -/
def jsTrimL (l : List Char) : List Char :=
  ((l.dropWhile jsIsSpace).reverse.dropWhile jsIsSpace).reverse

/-- JS `String.prototype.trim`. -/
def jsTrim (s : String) : String :=
  String.mk (jsTrimL s.toList)

/-- JS `String.prototype.split` with a single separator character
(every occurrence splits; no limit). -/
def splitOnChar (c : Char) : List Char → List (List Char)
  | [] => [[]]
  | a :: rest =>
    match splitOnChar c rest with
    | [] => [[]]
    | h :: t => if a = c then [] :: h :: t else (a :: h) :: t

/-- JS `raw.split(/\r?\n/)`: split on newlines, consuming one `\r`
directly before each `\n`. -/
def jsLines (raw : String) : List String :=
  (splitOnChar '\n' raw.toList).map
    (fun l => String.mk (if l.getLast? = some '\x0d' then l.dropLast else l))

/-- The `val.match(/\{(.*)\}/)` capture: the text strictly between the
first `{` and the last `}` after it, if both exist. -/
def braceMatch (val : String) : Option String :=
  let l := val.toList
  let pre := l.takeWhile (· ≠ lbraceChar)
  if pre.length = l.length then none
  else
    let rest := l.drop (pre.length + 1)
    if rest.any (· = rbraceChar) then
      let revSuf := rest.reverse.takeWhile (· ≠ rbraceChar)
      some (String.mk ((rest.reverse.drop (revSuf.length + 1)).reverse))
    else none

/-- `s.replace(/['"]/g, '').trim()`: remove every quote character, then
trim. -/
def stripQuotesTrim (s : String) : String :=
  jsTrim (String.mk (s.toList.filter (fun ch => ¬ (ch = squoteChar ∨ ch = dquoteChar))))

/-- Decimal digit run → value. -/
def digitsToNat (l : List Char) : ℕ :=
  l.foldl (fun acc c => 10 * acc + (c.toNat - 48)) 0

/-- Hex digit test. -/
def jsIsHexDigit (c : Char) : Bool :=
  c.isDigit ∨ ('a' ≤ c ∧ c ≤ 'f') ∨ ('A' ≤ c ∧ c ≤ 'F')

/-- Hex digit value. -/
def hexDigitVal (c : Char) : ℕ :=
  if c.isDigit then c.toNat - 48
  else if 'a' ≤ c ∧ c ≤ 'f' then c.toNat - 87
  else c.toNat - 55

/-- Hex digit run → value. -/
def hexToNat (l : List Char) : ℕ :=
  l.foldl (fun acc c => 16 * acc + hexDigitVal c) 0

/-- Split an optional leading sign: returns `(sign, rest)`. -/
def splitSign : List Char → Int × List Char
  | '-' :: rest => (-1, rest)
  | '+' :: rest => (1, rest)
  | l => (1, l)

/-- JS `parseInt(s)` with an unspecified radix: skip leading whitespace,
optional sign, then a `0x`/`0X` hex prefix or a decimal digit prefix;
`none` is `NaN`. -/
def jsParseInt (s : String) : Option Int :=
  let l := s.toList.dropWhile jsIsSpace
  let sg := splitSign l
  if sg.2.take 2 = ['0', 'x'] ∨ sg.2.take 2 = ['0', 'X'] then
    let ds := (sg.2.drop 2).takeWhile jsIsHexDigit
    if ds.isEmpty then none else some (sg.1 * hexToNat ds)
  else
    let ds := sg.2.takeWhile Char.isDigit
    if ds.isEmpty then none else some (sg.1 * digitsToNat ds)

/-- Value of `ip.fp × 10^exp`. -/
def decValue (sgn : Int) (ip fp : List Char) (exp : Int) : ℚ :=
  (sgn : ℚ) * ((digitsToNat ip : ℚ) + (digitsToNat fp : ℚ) / (10 : ℚ) ^ fp.length)
    * (10 : ℚ) ^ exp

/-- JS `Number(s)` string→number coercion: trimmed empty string is `0`;
`±Infinity`; unsigned hex; otherwise a signed decimal literal
`digits [. digits] [e|E [sign] digits]`; anything else is `NaN`. -/
def jsToNumber (s : String) : JNum :=
  let t := ((s.toList.dropWhile jsIsSpace).reverse.dropWhile jsIsSpace).reverse
  if t.isEmpty then fin 0
  else
    match t with
    | '0' :: 'x' :: rest =>
        if ¬ rest.isEmpty ∧ rest.all jsIsHexDigit then fin (hexToNat rest) else nan
    | '0' :: 'X' :: rest =>
        if ¬ rest.isEmpty ∧ rest.all jsIsHexDigit then fin (hexToNat rest) else nan
    | _ =>
      let sg := splitSign t
      if sg.2 = "Infinity".toList then (if sg.1 = 1 then posInf else negInf)
      else
        let ip := sg.2.takeWhile Char.isDigit
        let u1 := sg.2.drop ip.length
        let fu : List Char × List Char :=
          match u1 with
          | '.' :: r => (r.takeWhile Char.isDigit, r.drop (r.takeWhile Char.isDigit).length)
          | _ => ([], u1)
        let fp := fu.1
        if ip.isEmpty ∧ fp.isEmpty then nan
        else
          match fu.2 with
          | [] => fin (decValue sg.1 ip fp 0)
          | 'e' :: r =>
              let esg := splitSign r
              let ed := esg.2.takeWhile Char.isDigit
              if ed.isEmpty ∨ ¬ (esg.2.drop ed.length).isEmpty then nan
              else fin (decValue sg.1 ip fp (esg.1 * digitsToNat ed))
          | 'E' :: r =>
              let esg := splitSign r
              let ed := esg.2.takeWhile Char.isDigit
              if ed.isEmpty ∨ ¬ (esg.2.drop ed.length).isEmpty then nan
              else fin (decValue sg.1 ip fp (esg.1 * digitsToNat ed))
          | _ => nan

/-!
## The blueprint parser (`parseBlueprint`)

A direct transcription of the `lines.forEach` loop: a fold over the lines
with the mutable `config`/`currentSection` pair as state.  JS object fields
(`config.parameters[key] = props`, `config.vars[key] = val`) are modelled as
insertion-ordered association lists with replace-in-place update (`upsert`),
matching JS property-order semantics.  The `init` closure the source
attaches to the config is UI plumbing and is not part of the data model.
-/

/-- A property value inside a `{ ... }` object literal: numeric-looking
values are coerced to numbers, everything else stays a (quote-stripped)
string. -/
inductive JsProp where
  | str (s : String)
  | num (n : JNum)
deriving DecidableEq, Repr

/-- Insertion-ordered map update: replace in place, or append. -/
def upsert {α : Type} : List (String × α) → String → α → List (String × α)
  | [], k, v => [(k, v)]
  | (k0, v0) :: rest, k, v =>
      if k0 = k then (k0, v) :: rest else (k0, v0) :: upsert rest k v

/-- Axis configuration: the raw props objects stored for `x:` and `y:`. -/
structure AxisCfg where
  x : List (String × JsProp) := []
  y : List (String × JsProp) := []
deriving DecidableEq, Repr

/-- The parsed blueprint record, with the source's defaults. -/
structure PlotBlueprint where
  title : String := ""
  equation : String := "0"
  steps : Int := 500
  color : String := "rgb(255, 149, 0)"
  parameters : List (String × List (String × JsProp)) := []
  vars : List (String × String) := []
  axis : AxisCfg := {}
deriving DecidableEq, Repr

/-- `objMatch[1].split(',')` processing: each piece is split on `:`,
trimmed, kept only when both key and value are non-empty, quotes removed,
numeric-looking values coerced. -/
def parsePropPair (p : List Char) : Option (String × JsProp) :=
  let parts := (splitOnChar ':' p).map (fun l => String.mk (jsTrimL l))
  let propKey := parts.getD 0 ""
  let propVal := parts.getD 1 ""
  if propKey ≠ "" ∧ propVal ≠ "" then
    let cleanVal := stripQuotesTrim propVal
    some (propKey,
      if (jsToNumber cleanVal).jisNaN then .str cleanVal else .num (jsToNumber cleanVal))
  else none

/-- Build the props object from the brace-delimited content. -/
def parseProps (content : String) : List (String × JsProp) :=
  (splitOnChar ',' content.toList).foldl
    (fun acc p =>
      match parsePropPair p with
      | some kv => upsert acc kv.1 kv.2
      | none => acc)
    []

/-- `parseInt(val) || 500`: `NaN` and `0` are falsy. -/
def stepsOfVal (val : String) : Int :=
  match jsParseInt val with
  | some n => if n = 0 then 500 else n
  | none => 500

/-- Parser state: the config being built plus the active section name. -/
structure PState where
  cfg : PlotBlueprint
  currentSection : String
deriving DecidableEq, Repr

/-- One iteration of the `lines.forEach` body.  String tests are carried
out on character lists (`line.trim()` emptiness, `startsWith('#')`,
`includes(':')`, the `/^\S/` test, `indexOf(':')`/`substring`), which is
behaviourally identical on JS strings. -/
def parseLine (st : PState) (line : String) : PState :=
  let lchars := line.toList
  let trimmed := jsTrimL lchars
  if trimmed.isEmpty ∨ trimmed.headD ' ' = '#' then st
  else
    let isSectionHeader := ¬ lchars.isEmpty ∧ ¬ jsIsSpace (lchars.headD ' ')
    if trimmed.any (· = ':') ∧ isSectionHeader then
      let pre := lchars.takeWhile (· ≠ ':')
      let post := lchars.drop (pre.length + 1)
      let key := String.mk ((jsTrimL pre).map Char.toLower)
      let val := String.mk (jsTrimL post)
      if key = "params" ∨ key = "parameters" then { st with currentSection := "params" }
      else if key = "vars" ∨ key = "variables" then { st with currentSection := "vars" }
      else if key = "axis" then { st with currentSection := "axis" }
      else
        let cfg := st.cfg
        let cfg :=
          if key = "title" then { cfg with title := val }
          else if key = "equation" then { cfg with equation := val }
          else if key = "steps" then { cfg with steps := stepsOfVal val }
          else if key = "color" then { cfg with color := val }
          else cfg
        { cfg := cfg, currentSection := "" }
    else if trimmed.any (· = ':') then
      let pre := lchars.takeWhile (· ≠ ':')
      let post := lchars.drop (pre.length + 1)
      let key := String.mk (jsTrimL pre)
      let val := String.mk (jsTrimL post)
      match braceMatch val with
      | some objContent =>
          let props := parseProps objContent
          let cfg := st.cfg
          let cfg :=
            if st.currentSection = "params" then
              { cfg with parameters := upsert cfg.parameters key props }
            else cfg
          let cfg :=
            if st.currentSection = "axis" ∧ (key = "x" ∨ key = "y") then
              (if key = "x" then { cfg with axis := { cfg.axis with x := props } }
               else { cfg with axis := { cfg.axis with y := props } })
            else cfg
          { st with cfg := cfg }
      | none =>
          if st.currentSection = "vars" then
            { st with cfg := { st.cfg with vars := upsert st.cfg.vars key val } }
          else st
    else st

/-- `PlotMathEngine.parseBlueprint`: total on every input string. -/
def parseBlueprint (raw : String) : PlotBlueprint :=
  ((jsLines raw).foldl parseLine ⟨{}, ""⟩).cfg

/-!
## The expression & sampling engine (`generateChartConfig`)

The engine is transcribed compositionally:

* `resolveBound` — the `!isNaN(axis.?.min as any) ? ... : default` bound
  resolution (an absent field coerces to `NaN`, numeric strings coerce via
  `Number`);
* `diffEquationStr` — `"(" + parts[0] + ") - (" + parts[1] + ")"` with
  `parts = equation.split('=')`;
* `pointEval` / `explicitData` — the explicit-mode sweep
  (`for i = 0; i <= steps; i++`);
* `nodeVal` / `gridSample` — sampling the implicit-mode diff function on the
  flat `(gridSize+1)²` node array (row-major, `idx = j*gridRows + i`); the
  generated body wraps only the diff expression in `try/catch → NaN`
  (`exceptToNaN`), while the `varLogic` prelude sits outside it, so a
  variable error is thrown out of the sampling loop;
* `cellPoints` / `marchingSquares` — the per-cell Marching Squares step and
  the double loop over the 120×120 cells;
* `generateChartConfig` — bound resolution, mode dispatch on
  `equation.includes('=')`, the outer `try/catch` that rethrows any error as
  `"Equation Error: ..."`, and the chart-config assembly (presentational
  constants such as fonts and grid colors are not part of the model).
-/

/-- Grid resolution of implicit mode (`const gridSize = 120`). -/
def gridSize : ℕ := 120

/-- Number of grid nodes per row (`gridSize + 1`). -/
def gridRows : ℕ := gridSize + 1

/-- The inner `try { return <diff>; } catch(e) { return NaN; }` of the
implicit-mode evaluator body. -/
def exceptToNaN : Except String JNum → JNum
  | .ok v => v
  | .error _ => nan

/-- JS object property read on a props object. -/
def propFind : List (String × JsProp) → String → Option JsProp
  | [], _ => none
  | (k, v) :: rest, n => if k = n then some v else propFind rest n

/-- Resolve one axis bound: `!isNaN(v as any) ? v : dflt`.  An absent
field is `undefined` (`isNaN(undefined) = true`); a string coerces through
`Number` both in the `isNaN` test and in the later arithmetic. -/
def resolveBound (side : List (String × JsProp)) (key : String) (dflt : JNum) : JNum :=
  match propFind side key with
  | none => dflt
  | some (.num n) => if n.jisNaN then dflt else n
  | some (.str s) => if (jsToNumber s).jisNaN then dflt else jsToNumber s

/-- `"(" + parts[0] + ") - (" + parts[1] + ")"` for
`parts = equation.split('=')`. -/
def diffEquationStr (equation : String) : String :=
  let parts := (splitOnChar '=' equation.toList).map String.mk
  "(" ++ parts.getD 0 "" ++ ") - (" ++ parts.getD 1 "" ++ ")"

/-- The `getInterp` helper: linear zero-crossing interpolation with the
`|v1 - v2| < 1e-6` guard. -/
def getInterp (p1 p2 v1 v2 : JNum) : JNum :=
  if jlt (jabs (jsub v1 v2)) (fin (1 / 1000000)) then p1
  else jadd p1 (jmul (jdiv (jsub (fin 0) v1) (jsub v2 v1)) (jsub p2 p1))

/-- One cell of the Marching Squares loop: the `continue` on any NaN
corner, the 4-bit sign code, and the four edge-crossing pushes. -/
def cellPoints (v0 v1 v2 v3 xL xR yB yT : JNum) : List (JNum × JNum) :=
  if v0.jisNaN ∨ v1.jisNaN ∨ v2.jisNaN ∨ v3.jisNaN then []
  else
    let configCode : ℕ :=
      (if v0.jgt0 then 1 else 0) |||
      (if v1.jgt0 then 2 else 0) |||
      (if v2.jgt0 then 4 else 0) |||
      (if v3.jgt0 then 8 else 0)
    if 0 < configCode ∧ configCode < 15 then
      (if v0.jgt0 ≠ v1.jgt0 then [(getInterp xL xR v0 v1, yB)] else []) ++
      (if v1.jgt0 ≠ v2.jgt0 then [(xR, getInterp yB yT v1 v2)] else []) ++
      (if v2.jgt0 ≠ v3.jgt0 then [(getInterp xR xL v2 v3, yT)] else []) ++
      (if v3.jgt0 ≠ v0.jgt0 then [(xL, getInterp yT yB v3 v0)] else [])
    else []

/-- Read `values[j * gridRows + i]` from the flat sample array. -/
def gridAt (vs : List JNum) (i j : ℕ) : JNum :=
  vs.getD (j * gridRows + i) nan

/-- The Marching Squares double loop over the 120×120 cells, reading the
four corners `idx0..idx3` and appending each cell's crossing points. -/
def marchingSquares (vs : List JNum) (xMin yMin dx dy : JNum) : List (JNum × JNum) :=
  (List.range gridSize).flatMap fun j =>
    (List.range gridSize).flatMap fun i =>
      let xL := jadd xMin (jmul (fin i) dx)
      let xR := jadd xL dx
      let yB := jadd yMin (jmul (fin j) dy)
      let yT := jadd yB dy
      cellPoints (gridAt vs i j) (gridAt vs (i + 1) j)
        (gridAt vs (i + 1) (j + 1)) (gridAt vs i (j + 1)) xL xR yB yT

/-- One call of the implicit-mode evaluator `evalFn2D(px, py, ...)`:
run the `varLogic` prelude (errors propagate), then the guarded diff
expression (errors become `NaN`). -/
def nodeVal (varsC : List (String × Expr)) (diffE : Expr) (params : Ctx)
    (px py : JNum) : Except String JNum := do
  let ctx ← evalVars (baseCtx2D params px py) varsC
  pure (exceptToNaN (evalExpr ctx diffE))

/-- Fill the flat `Float64Array(gridRows * gridRows)` sample array
(row-major: node `k` is column `k % gridRows`, row `k / gridRows`). -/
def gridSample (varsC : List (String × Expr)) (diffE : Expr) (params : Ctx)
    (xMin yMin dx dy : JNum) : Except String (List JNum) :=
  (List.range (gridRows * gridRows)).mapM fun k =>
    nodeVal varsC diffE params
      (jadd xMin (jmul (fin ((k % gridRows : ℕ) : ℚ)) dx))
      (jadd yMin (jmul (fin ((k / gridRows : ℕ) : ℚ)) dy))

/-- The whole implicit branch: grid spacing, sampling, contour extraction. -/
def implicitData (varsC : List (String × Expr)) (diffE : Expr) (params : Ctx)
    (xMin xMax yMin yMax : JNum) : Except String (List (JNum × JNum)) := do
  let dx := jdiv (jsub xMax xMin) (fin (gridSize : ℚ))
  let dy := jdiv (jsub yMax yMin) (fin (gridSize : ℚ))
  let vs ← gridSample varsC diffE params xMin yMin dx dy
  pure (marchingSquares vs xMin yMin dx dy)

/-- One call of the explicit-mode evaluator `evalFn(x, ...)`: the
`varLogic` prelude then the equation, with no guard — every error
propagates. -/
def pointEval (varsC : List (String × Expr)) (eqE : Expr) (params : Ctx)
    (px : JNum) : Except String JNum := do
  let ctx ← evalVars (baseCtx1D params px) varsC
  evalExpr ctx eqE

/-- The explicit-mode sweep `for (i = 0; i <= steps; i++)` with
`x = xMin + ((xMax - xMin) * i) / steps`. -/
def explicitData (varsC : List (String × Expr)) (eqE : Expr) (params : Ctx)
    (xMin xMax : JNum) (steps : Int) : Except String (List (JNum × JNum)) :=
  (List.range (steps + 1).toNat).mapM fun (i : ℕ) => do
    let x := jadd xMin (jdiv (jmul (jsub xMax xMin) (fin (i : ℚ))) (fin (steps : ℚ)))
    let y ← pointEval varsC eqE params x
    pure (x, y)

/-- Chart.js dataset type: `'line'` or `'scatter'`. -/
inductive ChartType where
  | line
  | scatter
deriving DecidableEq, Repr

/-- The data-carrying part of the returned Chart.js configuration:
dataset type, point series, label, line color, and the resolved axis
ranges (purely presentational styling constants are omitted). -/
structure ChartConfig where
  typ : ChartType
  data : List (JNum × JNum)
  label : String
  borderColor : String
  xMin : JNum
  xMax : JNum
  yMin : JNum
  yMax : JNum
deriving DecidableEq, Repr

/-- `PlotMathEngine.generateChartConfig`, with `compile` standing for the
JS engine's `new Function` expression compilation (`.error` = a
construction-time `SyntaxError`; the source compiles the variable
statements and the equation as one function body, so a syntax error in any
of them throws before any sampling).  The whole evaluation sits in the
outer `try`, whose `catch` rethrows as `Equation Error: ...`. -/
def generateChartConfig (compile : String → Except String Expr)
    (bp : PlotBlueprint) (params : Ctx) : Except String ChartConfig :=
  let xMin := resolveBound bp.axis.x "min" (fin (-10))
  let xMax := resolveBound bp.axis.x "max" (fin 10)
  let yMin := resolveBound bp.axis.y "min" (fin (-10))
  let yMax := resolveBound bp.axis.y "max" (fin 10)
  let isImplicit := bp.equation.toList.any (· = '=')
  let run : Except String (ChartType × List (JNum × JNum)) := do
    let varsC ← bp.vars.mapM (fun nv => do
      let e ← compile nv.2
      pure (nv.1, e))
    if isImplicit then
      let diffE ← compile (diffEquationStr bp.equation)
      let pts ← implicitData varsC diffE params xMin xMax yMin yMax
      pure (ChartType.scatter, pts)
    else
      let eqE ← compile bp.equation
      let pts ← explicitData varsC eqE params xMin xMax bp.steps
      pure (ChartType.line, pts)
  match run with
  | .error e => .error ("Equation Error: " ++ e)
  | .ok tp =>
      .ok { typ := tp.1, data := tp.2,
            label := if bp.title = "" then "Plot" else bp.title,
            borderColor := bp.color,
            xMin := xMin, xMax := xMax, yMin := yMin, yMax := yMax }

/-- The point series of a successful evaluation (empty on failure). -/
def getData : Except String ChartConfig → List (JNum × JNum)
  | .ok cfg => cfg.data
  | .error _ => []

/-!
## Helper lemmas

Generic facts about `List.mapM` in the `Except` monad and about indexed
access to mapped ranges, used to reason about the sweep and the sampling
loops without unfolding 14 641 concrete evaluations.
-/

theorem exmapM_ok_of {α β : Type} (l : List α) (f : α → Except String β) (g : α → β)
    (h : ∀ a ∈ l, f a = .ok (g a)) : l.mapM f = .ok (l.map g) := by
  induction l with
  | nil => rw [List.mapM_nil]; rfl
  | cons a l ih =>
    rw [List.mapM_cons, h a (List.mem_cons_self a l),
      ih (fun b hb => h b (List.mem_cons_of_mem a hb))]
    rfl

theorem exmapM_ok_spec {α β : Type} (l : List α) (f : α → Except String β) (ys : List β)
    (h : l.mapM f = .ok ys) :
    ys.length = l.length ∧ ∀ i (h1 : i < l.length) (h2 : i < ys.length),
      f (l.get ⟨i, h1⟩) = .ok (ys.get ⟨i, h2⟩) := by
  induction l generalizing ys with
  | nil =>
    rw [List.mapM_nil] at h
    cases h
    exact ⟨rfl, fun i h1 _ => absurd h1 (Nat.not_lt_zero i)⟩
  | cons a l ih =>
    rw [List.mapM_cons] at h
    cases hfa : f a with
    | error m => rw [hfa] at h; cases h
    | ok b =>
      rw [hfa] at h
      cases hm : l.mapM f with
      | error m => rw [hm] at h; cases h
      | ok bs =>
        rw [hm] at h
        cases h
        obtain ⟨hlen, hget⟩ := ih bs hm
        refine ⟨by simp [hlen], ?_⟩
        intro i h1 h2
        cases i with
        | zero => simpa using hfa
        | succ n =>
          simpa using hget n (Nat.lt_of_succ_lt_succ h1) (Nat.lt_of_succ_lt_succ h2)

theorem exmapM_error_of_mem {α β : Type} (l : List α) (f : α → Except String β)
    (a : α) (m : String) (ha : a ∈ l) (hf : f a = .error m) :
    ∃ m2, l.mapM f = .error m2 := by
  induction l with
  | nil => cases ha
  | cons b l ih =>
    rw [List.mapM_cons]
    cases hfb : f b with
    | error m2 => exact ⟨m2, rfl⟩
    | ok v =>
      rcases List.mem_cons.mp ha with rfl | ha2
      · rw [hfb] at hf; cases hf
      · obtain ⟨m2, hm⟩ := ih ha2
        refine ⟨m2, ?_⟩
        rw [hm]
        rfl

theorem getD_map_range {β : Type} (g : ℕ → β) (n k : ℕ) (d : β) (h : k < n) :
    ((List.range n).map g).getD k d = g k := by
  rw [List.getD_eq_getElem?_getD, List.getElem?_map, List.getElem?_range h]
  rfl

/-!
## Claim-side definitions

Definitions that transcribe the *specification's wording* (not the source),
used to compare spec and code where a claim asserts a particular formula,
plus the concrete instances used by counterexamples and witnesses.
-/

/-- Claim side (C5): split the equation on the *first* `=` into left and
right sub-expressions, `diff = left - right`. -/
def diffFirstSplitStr (equation : String) : String :=
  let l := equation.toList
  let left := l.takeWhile (· ≠ '=')
  "(" ++ String.mk left ++ ") - (" ++ String.mk (l.drop (left.length + 1)) ++ ")"

/-- Claim side (C10): the (decimal) integer prefix of a value string —
optional sign followed by leading decimal digits, `none` if there are no
leading digits. -/
def decIntPrefix (s : String) : Option Int :=
  let sg := splitSign (s.toList.dropWhile jsIsSpace)
  let ds := sg.2.takeWhile Char.isDigit
  if ds.isEmpty then none else some (sg.1 * digitsToNat ds)

/-- Claim side (C6): membership of a point in the sampling bounding box
`[xMin,xMax] × [yMin,yMax]` (JS comparisons: false on `NaN`). -/
def inBox (xMin xMax yMin yMax : JNum) (p : JNum × JNum) : Bool :=
  jle xMin p.1 ∧ jle p.1 xMax ∧ jle yMin p.2 ∧ jle p.2 yMax

/-- Claim side (C4): the interpolation formula
`p1 + (0 - v1)/(v2 - v1) * (p2 - p1)`, returning `p1` when
`|v1 - v2| < 1e-6`, stated over exact rationals. -/
def specInterp (p1 p2 v1 v2 : ℚ) : ℚ :=
  if |v1 - v2| < 1 / 1000000 then p1 else p1 + (0 - v1) / (v2 - v1) * (p2 - p1)

/-- Claim side (C4): the per-cell contribution as the claim words it — a
4-bit code with a bit per corner `> 0` tested in order bottom-left,
bottom-right, top-right, top-left; cells with code 0 or 15 contribute
nothing; for each of the four edges whose endpoint signs differ, one
interpolated crossing point is appended. -/
def cellPointsSpec (v0 v1 v2 v3 xL xR yB yT : ℚ) : List (ℚ × ℚ) :=
  let code : ℕ :=
    (if 0 < v0 then 1 else 0) ||| (if 0 < v1 then 2 else 0) |||
    (if 0 < v2 then 4 else 0) ||| (if 0 < v3 then 8 else 0)
  if code = 0 ∨ code = 15 then []
  else
    (if decide (0 < v0) ≠ decide (0 < v1) then [(specInterp xL xR v0 v1, yB)] else []) ++
    (if decide (0 < v1) ≠ decide (0 < v2) then [(xR, specInterp yB yT v1 v2)] else []) ++
    (if decide (0 < v2) ≠ decide (0 < v3) then [(specInterp xR xL v2 v3, yT)] else []) ++
    (if decide (0 < v3) ≠ decide (0 < v0) then [(xL, specInterp yT yB v3 v0)] else [])

/-- Concrete compile oracle for the blueprint `equation: foo = 0` (the
implicit-mode diff body compiles to `(foo) - (0)`; everything else is a
syntax error). -/
def fooCompile : String → Except String Expr := fun s =>
  if s = diffEquationStr "foo = 0" then .ok (Expr.esub (Expr.ident "foo") (Expr.num 0))
  else .error "SyntaxError"

/-- Blueprint with the implicit equation `foo = 0` (an undeclared
identifier in the equation), everything else defaulted. -/
def fooBp : PlotBlueprint := { equation := "foo = 0" }

/-- Axis props `{ min: 0, max: 120 }`. -/
def invAxis : List (String × JsProp) := [("min", .num (fin 0)), ("max", .num (fin 120))]

/-- Blueprint with the implicit equation `1/x = 1` on the grid
`[0,120] × [0,120]` (so `diff = 1/x - 1` is `+Infinity` on the `x = 0`
grid column). -/
def invBp : PlotBlueprint := { equation := "1/x = 1", axis := { x := invAxis, y := invAxis } }

/-- The compiled diff expression `(1/x) - (1)`. -/
def invDiffE : Expr := .esub (.ediv (.num 1) (.ident "x")) (.num 1)

/-- Concrete compile oracle for `1/x = 1`. -/
def invCompile : String → Except String Expr := fun s =>
  if s = diffEquationStr "1/x = 1" then .ok invDiffE else .error "SyntaxError"

@[simp]
theorem exbind_ok {α β : Type} (a : α) (f : α → Except String β) :
    (Except.ok a >>= f) = f a := rfl

@[simp]
theorem exbind_error {α β : Type} (m : String) (f : α → Except String β) :
    ((Except.error m : Except String α) >>= f) = Except.error m := rfl

/-- Witness blueprint for explicit mode: `equation: 7`, `steps: 2`,
default axis. -/
def c5wBp : PlotBlueprint := { equation := "7", steps := 2 }

/-- Compile oracle for `c5wBp`. -/
def c5wCompile : String → Except String Expr := fun s =>
  if s = "7" then .ok (.num 7) else .error "SyntaxError"

/-- The chart configuration `c5wBp` evaluates to. -/
def c5wCfg : ChartConfig :=
  { typ := .line,
    data := [(fin (-10), fin 7), (fin 0, fin 7), (fin 10, fin 7)],
    label := "Plot", borderColor := "rgb(255, 149, 0)",
    xMin := fin (-10), xMax := fin 10, yMin := fin (-10), yMax := fin 10 }

/-!
## Claims
-/

/-- **C9**: evaluation is deterministic and stateless — for every blueprint
and parameter assignment, two evaluation runs on equal inputs produce equal
output series and axis configuration.  The embedding of
`generateChartConfig` is a pure function (the source touches no state
outside its locals), so this holds definitionally. -/
theorem C9_evaluation_deterministic (compile : String → Except String Expr)
    (bp1 bp2 : PlotBlueprint) (p1 p2 : Ctx) (hbp : bp1 = bp2) (hp : p1 = p2) :
    generateChartConfig compile bp1 p1 = generateChartConfig compile bp2 p2 := by
  rw [hbp, hp]

/-- Witness for C9 at a concrete blueprint. -/
theorem C9_evaluation_deterministic_witness :
    generateChartConfig c5wCompile c5wBp [] = generateChartConfig c5wCompile c5wBp [] :=
  C9_evaluation_deterministic c5wCompile c5wBp c5wBp [] [] rfl rfl

/-- **C5** (counterexample): the claim says implicit mode splits the
equation on the *first* top-level `=`.  The source instead uses
`equation.split('=')` and keeps only `parts[0]` and `parts[1]`: on
`1=2=3` the code builds the diff text `(1) - (2)`, discarding `=3`,
whereas splitting on the first `=` would build `(1) - (2=3)`. -/
theorem C5_counterexample :
    diffEquationStr "1=2=3" = "(1) - (2)" ∧
    diffFirstSplitStr "1=2=3" = "(1) - (2=3)" ∧
    diffEquationStr "1=2=3" ≠ diffFirstSplitStr "1=2=3" :=
  ⟨by decide, by decide, by decide⟩

set_option maxRecDepth 4096 in
/-- **C5** (amended): the evaluation mode is decided by whether the
equation string contains `=` anywhere; in implicit mode the equation is
split on every `=` and the field whose zero-contour is extracted is
`diff = parts[0] - parts[1]` (text after a second `=` is discarded), as
built by `diffEquationStr` and fed through `implicitData`. -/
theorem C5_mode_dispatch_amended (compile : String → Except String Expr)
    (bp : PlotBlueprint) (params : Ctx) (cfg : ChartConfig)
    (h : generateChartConfig compile bp params = .ok cfg) :
    (cfg.typ = ChartType.scatter ↔ bp.equation.toList.any (· = '=') = true) ∧
    (bp.equation.toList.any (· = '=') = true →
      ∃ varsC diffE pts,
        bp.vars.mapM (fun nv => do
          let e ← compile nv.2
          pure (nv.1, e)) = .ok varsC ∧
        compile (diffEquationStr bp.equation) = .ok diffE ∧
        implicitData varsC diffE params
          (resolveBound bp.axis.x "min" (fin (-10)))
          (resolveBound bp.axis.x "max" (fin 10))
          (resolveBound bp.axis.y "min" (fin (-10)))
          (resolveBound bp.axis.y "max" (fin 10)) = .ok pts ∧
        cfg.data = pts) := by
  unfold generateChartConfig at h
  cases hv : bp.vars.mapM (fun nv => do let e ← compile nv.2; pure (nv.1, e)) with
  | error m => simp only [hv, exbind_error] at h; cases h
  | ok varsC =>
    simp only [hv, exbind_ok] at h
    cases him : bp.equation.toList.any (· = '=') with
    | false =>
      simp only [him, Bool.false_eq_true, if_false] at h
      cases hc : compile bp.equation with
      | error m => simp only [hc, exbind_error] at h; cases h
      | ok eqE =>
        simp only [hc, exbind_ok] at h
        cases he : explicitData varsC eqE params
            (resolveBound bp.axis.x "min" (fin (-10)))
            (resolveBound bp.axis.x "max" (fin 10)) bp.steps with
        | error m => simp only [he, exbind_error] at h; cases h
        | ok pts =>
          simp only [he, exbind_ok] at h
          cases h
          exact ⟨by simp [him], by simp [him]⟩
    | true =>
      simp only [him, if_true] at h
      cases hc : compile (diffEquationStr bp.equation) with
      | error m => simp only [hc, exbind_error] at h; cases h
      | ok diffE =>
        simp only [hc, exbind_ok] at h
        cases hd : implicitData varsC diffE params
            (resolveBound bp.axis.x "min" (fin (-10)))
            (resolveBound bp.axis.x "max" (fin 10))
            (resolveBound bp.axis.y "min" (fin (-10)))
            (resolveBound bp.axis.y "max" (fin 10)) with
        | error m => simp only [hd, exbind_error] at h; cases h
        | ok pts =>
          simp only [hd, exbind_ok] at h
          cases h
          refine ⟨by simp, fun _ => ⟨varsC, diffE, pts, ?_, ?_, ?_, ?_⟩⟩
          · rfl
          · rfl
          · exact hd
          · rfl

/-- Witness for the amended C5 at the concrete explicit blueprint
`c5wBp` (no `=` in the equation, so the chart type is `line`). -/
theorem C5_mode_dispatch_amended_witness :
    (c5wCfg.typ = ChartType.scatter ↔ c5wBp.equation.toList.any (· = '=') = true) ∧
    (c5wBp.equation.toList.any (· = '=') = true →
      ∃ varsC diffE pts,
        c5wBp.vars.mapM (fun nv => do
          let e ← c5wCompile nv.2
          pure (nv.1, e)) = .ok varsC ∧
        c5wCompile (diffEquationStr c5wBp.equation) = .ok diffE ∧
        implicitData varsC diffE []
          (resolveBound c5wBp.axis.x "min" (fin (-10)))
          (resolveBound c5wBp.axis.x "max" (fin 10))
          (resolveBound c5wBp.axis.y "min" (fin (-10)))
          (resolveBound c5wBp.axis.y "max" (fin 10)) = .ok pts ∧
        c5wCfg.data = pts) :=
  C5_mode_dispatch_amended c5wCompile c5wBp [] c5wCfg (by with_unfolding_all rfl)

/-- Dropping a leading whitespace character does not change `trim`. -/
theorem jsTrimL_cons_space (c : Char) (l : List Char) (hc : jsIsSpace c = true) :
    jsTrimL (c :: l) = jsTrimL l := by
  simp [jsTrimL, List.dropWhile_cons, hc]

/-- `trim` of `B ++ R` keeps a prefix `B` that starts and ends with
non-whitespace intact and right-trims `R`. -/
theorem jsTrimL_solid_append (B R : List Char) (hB : ¬ B.isEmpty)
    (h1 : jsIsSpace (B.headD ' ') = false)
    (h2 : jsIsSpace (B.reverse.headD ' ') = false) :
    jsTrimL (B ++ R) = B ++ (R.reverse.dropWhile jsIsSpace).reverse := by
  cases B with
  | nil => simp at hB
  | cons a B2 =>
    simp only [List.headD_cons] at h1
    unfold jsTrimL
    rw [List.dropWhile_append]
    have hdB : (a :: B2).dropWhile jsIsSpace = a :: B2 := by
      simp [List.dropWhile_cons, h1]
    rw [hdB]
    simp only [List.isEmpty_cons, if_false, Bool.false_eq_true]
    rw [List.reverse_append, List.dropWhile_append]
    by_cases hc : (R.reverse.dropWhile jsIsSpace).isEmpty
    · have hre : R.reverse.dropWhile jsIsSpace = [] := by
        simpa [List.isEmpty_iff] using hc
      rw [hre]
      simp only [List.isEmpty_nil, if_true]
      have hdrev : (a :: B2).reverse.dropWhile jsIsSpace = (a :: B2).reverse := by
        cases hrev : (a :: B2).reverse with
        | nil => simp at hrev
        | cons b B3 =>
          rw [hrev] at h2
          simp only [List.headD_cons] at h2
          simp [List.dropWhile_cons, h2]
      rw [hdrev]
      simp
    · simp only [hc, if_false, Bool.false_eq_true]
      rw [List.reverse_append, List.reverse_reverse]

/-- A root-level `steps:` line always takes the scalar-field branch of the
parser and stores `parseInt(val) || 500` of its trimmed value. -/
theorem parseLine_steps (st : PState) (v : String) :
    parseLine st ("steps: " ++ v) =
      ⟨{ st.cfg with steps := stepsOfVal (jsTrim v) }, ""⟩ := by
  have hl : ("steps: " ++ v).toList = ['s','t','e','p','s',':'] ++ (' ' :: v.toList) := by
    rw [show (("steps: " ++ v).toList = "steps: ".data ++ v.data) from
      String.data_append "steps: " v]
    rfl
  have htrim : jsTrimL (['s','t','e','p','s',':'] ++ (' ' :: v.toList)) =
      ['s','t','e','p','s',':'] ++ ((' ' :: v.toList).reverse.dropWhile jsIsSpace).reverse :=
    jsTrimL_solid_append _ _ (by decide) (by decide) (by decide)
  have hkey : String.mk (List.map Char.toLower (jsTrimL ['s','t','e','p','s'])) = "steps" := by
    decide
  have hsp : jsTrimL (' ' :: v.toList) = jsTrimL v.toList := jsTrimL_cons_space _ _ (by decide)
  simp only [parseLine, hl, htrim]
  simp only [List.cons_append, List.nil_append]
  simp only [List.isEmpty_cons, List.headD_cons, List.any_cons, List.takeWhile_cons,
    ne_eq, decide_not, Char.reduceEq, decide_True, decide_False, Bool.false_eq_true,
    Bool.not_false, Bool.not_true, if_true, if_false, Bool.false_or, Bool.or_true,
    Bool.true_or, Bool.or_false, Bool.and_true, Bool.true_and, Bool.and_false,
    Bool.false_and, List.length_cons, List.length_nil, List.drop_succ_cons,
    List.drop_zero, List.any_nil, jsIsSpace, or_false, false_or, or_true, true_or,
    not_false_iff, not_true, and_true, true_and, and_false, false_and]
  simp only [hkey, hsp, String.reduceEq, if_true, if_false, reduceIte, jsTrim]
  simp only [or_self, if_false]

/-- When the decimal integer prefix of a value is a nonzero integer,
`parseInt` returns exactly that integer (a nonzero prefix rules out the
hex-radix branch). -/
theorem jsParseInt_of_decIntPrefix (s : String) (n : Int)
    (h : decIntPrefix s = some n) (hn : n ≠ 0) : jsParseInt s = some n := by
  unfold decIntPrefix at h
  unfold jsParseInt
  dsimp only [] at h ⊢
  by_cases hds : ((splitSign (s.toList.dropWhile jsIsSpace)).2.takeWhile Char.isDigit).isEmpty
  · rw [if_pos hds] at h
    cases h
  · rw [if_neg hds] at h
    by_cases hhex : ((splitSign (s.toList.dropWhile jsIsSpace)).2.take 2 = ['0', 'x'] ∨
        (splitSign (s.toList.dropWhile jsIsSpace)).2.take 2 = ['0', 'X'])
    · exfalso
      apply hn
      have hzero : (splitSign (s.toList.dropWhile jsIsSpace)).2.takeWhile Char.isDigit = ['0'] := by
        rcases hhex with hx | hx
        all_goals
          have hsplit := List.take_append_drop 2 (splitSign (s.toList.dropWhile jsIsSpace)).2
          rw [hx] at hsplit
          rw [← hsplit]
          simp [List.takeWhile_cons]
      rw [hzero] at h
      simp only [Option.some_inj] at h
      rw [← h]
      norm_num [show digitsToNat ['0'] = 0 from rfl]
    · rw [if_neg hhex, if_neg hds]
      exact h

/-- **C10**: for a blueprint text whose single line is a root-level
`steps:` line with value `v`, the parsed `steps` field is
`parseInt(v) || 500`: it equals the (decimal) integer prefix of `v`
whenever that prefix is a nonzero integer — so fractional values truncate
and negative values are kept — and falls back to `500` whenever the
integer parse yields `0` or `NaN`. -/
theorem C10_steps_field (raw v : String) (hraw : jsLines raw = ["steps: " ++ v]) :
    ((parseBlueprint raw).steps = stepsOfVal (jsTrim v)) ∧
    (∀ n : Int, decIntPrefix (jsTrim v) = some n → n ≠ 0 → (parseBlueprint raw).steps = n) ∧
    ((jsParseInt (jsTrim v) = some 0 ∨ jsParseInt (jsTrim v) = none) →
      (parseBlueprint raw).steps = 500) := by
  have h1 : (parseBlueprint raw).steps = stepsOfVal (jsTrim v) := by
    unfold parseBlueprint
    rw [hraw]
    simp only [List.foldl_cons, List.foldl_nil, parseLine_steps]
  refine ⟨h1, ?_, ?_⟩
  · intro n hpre hn
    rw [h1]
    unfold stepsOfVal
    rw [jsParseInt_of_decIntPrefix _ n hpre hn]
    simp [hn]
  · intro hcase
    rw [h1]
    unfold stepsOfVal
    rcases hcase with h0 | h0
    all_goals rw [h0]
    all_goals simp

/-- Witness for C10: `steps: 4.9` parses to 4 (truncation), `steps: 0`
falls back to 500, and `steps: -12` keeps the negative value. -/
theorem C10_steps_field_witness :
    (parseBlueprint "steps: 4.9").steps = 4 ∧
    (parseBlueprint "steps: 0").steps = 500 ∧
    (parseBlueprint "steps: -12").steps = -12 :=
  ⟨(C10_steps_field "steps: 4.9" "4.9" (by decide)).2.1 4 (by decide) (by decide),
   (C10_steps_field "steps: 0" "0" (by decide)).2.2 (Or.inl (by decide)),
   (C10_steps_field "steps: -12" "-12" (by decide)).2.1 (-12) (by decide) (by decide)⟩

/-- A line that is blank after trimming, starts with `#`, or contains no
colon leaves the parser state untouched. -/
theorem parseLine_skip (st : PState) (line : String)
    (h : (jsTrimL line.toList).isEmpty = true ∨ (jsTrimL line.toList).headD ' ' = '#' ∨
      (jsTrimL line.toList).any (· = ':') = false) :
    parseLine st line = st := by
  unfold parseLine
  dsimp only []
  rcases h with h1 | h2 | h3
  · rw [if_pos (Or.inl h1)]
  · rw [if_pos (Or.inr h2)]
  · by_cases hskip : ((jsTrimL line.toList).isEmpty = true ∨ (jsTrimL line.toList).headD ' ' = '#')
    · rw [if_pos hskip]
    · have hany : ¬((jsTrimL line.toList).any (· = ':') = true) := by
        rw [h3]
        exact Bool.false_ne_true
      rw [if_neg hskip, if_neg (fun hc => hany hc.1), if_neg hany]

/-- **C8**: blueprint parsing is total — it is a Lean function defined on
every input string, so it cannot raise — and any text none of whose lines
carries a recognizable `key: value` shape (every line is blank, a `#`
comment, or colon-free) parses to the all-defaults blueprint: `steps = 500`,
the default orange color, empty parameters and variables, and unset axis
fields. -/
theorem C8_parsing_total_defaults (raw : String)
    (h : ∀ line ∈ jsLines raw,
      (jsTrimL line.toList).isEmpty = true ∨ (jsTrimL line.toList).headD ' ' = '#' ∨
      (jsTrimL line.toList).any (· = ':') = false) :
    parseBlueprint raw =
      { title := "", equation := "0", steps := 500, color := "rgb(255, 149, 0)",
        parameters := [], vars := [], axis := { x := [], y := [] } } := by
  unfold parseBlueprint
  have hfold : (jsLines raw).foldl parseLine ⟨{}, ""⟩ = ⟨{}, ""⟩ := by
    generalize jsLines raw = ls at h
    induction ls with
    | nil => rfl
    | cons a t ih =>
      rw [List.foldl_cons, parseLine_skip _ a (h a (List.mem_cons_self a t))]
      exact ih (fun l hl => h l (List.mem_cons_of_mem a hl))
  rw [hfold]

/-- Witness for C8 on arbitrary colon-free text. -/
theorem C8_parsing_total_defaults_witness :
    parseBlueprint "hello world\njust some text\n# a comment line" =
      { title := "", equation := "0", steps := 500, color := "rgb(255, 149, 0)",
        parameters := [], vars := [], axis := { x := [], y := [] } } :=
  C8_parsing_total_defaults _ (by decide)

/-- Evaluating a variable block only prepends the variables' own names:
any other name still resolves as in the starting scope. -/
theorem evalVars_find_preserve (vs : List (String × Expr)) (ctx1 ctx2 : Ctx)
    (hok : evalVars ctx1 vs = .ok ctx2) (name : String)
    (hnm : name ∉ vs.map Prod.fst) :
    ctxFind ctx2 name = ctxFind ctx1 name := by
  induction vs generalizing ctx1 with
  | nil => cases hok; rfl
  | cons nv rest ih =>
    unfold evalVars at hok
    cases hv : evalExpr ctx1 nv.2 with
    | error m => rw [hv] at hok; cases hok
    | ok v =>
      rw [hv] at hok
      simp only [List.map_cons, List.mem_cons, not_or] at hnm
      have := ih ((nv.1, v) :: ctx1) hok hnm.2
      rw [this]
      show (if nv.1 = name then some v else ctxFind ctx1 name) = ctxFind ctx1 name
      rw [if_neg (fun he => hnm.1 he.symm)]

/-- **C7**: derived variables are evaluated once per evaluation pass in
declaration order: for distinct variable names, the `i`-th variable's
expression is evaluated against the scope extended with exactly the
earlier-declared variables' computed values, and both a direct scope
lookup and an identifier reference evaluated in the final scope (as the
main equation or a later variable would do) resolve to that computed
numeric value. -/
theorem C7_vars_declaration_order (ctx : Ctx) (vs : List (String × Expr)) (ctx2 : Ctx)
    (hnodup : (vs.map Prod.fst).Nodup)
    (hok : evalVars ctx vs = .ok ctx2) :
    ∀ i (hi : i < vs.length),
      ∃ ctxi v,
        evalVars ctx (vs.take i) = .ok ctxi ∧
        evalExpr ctxi (vs.get ⟨i, hi⟩).2 = .ok v ∧
        ctxFind ctx2 (vs.get ⟨i, hi⟩).1 = some v ∧
        evalExpr ctx2 (.ident (vs.get ⟨i, hi⟩).1) = .ok v := by
  induction vs generalizing ctx with
  | nil => intro i hi; exact absurd hi (Nat.not_lt_zero i)
  | cons nv rest ih =>
    intro i hi
    unfold evalVars at hok
    cases hv : evalExpr ctx nv.2 with
    | error m => rw [hv] at hok; cases hok
    | ok v =>
      rw [hv] at hok
      simp only [exbind_ok] at hok
      simp only [List.map_cons, List.nodup_cons] at hnodup
      cases i with
      | zero =>
        simp only [List.get_cons_zero, List.take_zero]
        have hpres := evalVars_find_preserve rest ((nv.1, v) :: ctx) ctx2 hok nv.1 hnodup.1
        have hfind : ctxFind ctx2 nv.1 = some v := by
          rw [hpres]
          unfold ctxFind
          rw [if_pos rfl]
        refine ⟨ctx, v, rfl, hv, hfind, ?_⟩
        unfold evalExpr
        show (match ctxFind ctx2 nv.1 with
          | some w => Except.ok w
          | none => Except.error (nv.1 ++ " is not defined")) = Except.ok v
        rw [hfind]
      | succ j =>
        obtain ⟨ctxi, w, h1, h2, h3, h4⟩ :=
          ih ((nv.1, v) :: ctx) hnodup.2 hok j (Nat.lt_of_succ_lt_succ hi)
        refine ⟨ctxi, w, ?_, h2, h3, h4⟩
        rw [List.take_succ_cons]
        unfold evalVars
        rw [hv]
        simp only [exbind_ok]
        exact h1

/-- The two-variable block of the C7 witness: `A = 2`, `B = A * 3`. -/
def c7vars : List (String × Expr) :=
  [("A", Expr.num 2), ("B", Expr.emul (Expr.ident "A") (Expr.num 3))]

/-- The scope produced by evaluating `c7vars` from the empty scope. -/
def c7ctx2 : Ctx := [("B", fin 6), ("A", fin 2)]

/-- Witness for C7: `B = A * 3` sees `A = 2` and resolves to 6. -/
theorem C7_vars_declaration_order_witness :
    ∃ ctxi v,
      evalVars [] (c7vars.take 1) = .ok ctxi ∧
      evalExpr ctxi (c7vars.get ⟨1, by decide⟩).2 = .ok v ∧
      ctxFind c7ctx2 (c7vars.get ⟨1, by decide⟩).1 = some v ∧
      evalExpr c7ctx2 (.ident (c7vars.get ⟨1, by decide⟩).1) = .ok v :=
  C7_vars_declaration_order [] c7vars c7ctx2 (by decide) (by with_unfolding_all rfl) 1 (by decide)

/-!
## Finite-value arithmetic lemmas
-/

@[simp]
theorem jadd_fin (a b : ℚ) : jadd (fin a) (fin b) = fin (a + b) := rfl

@[simp]
theorem jsub_fin (a b : ℚ) : jsub (fin a) (fin b) = fin (a - b) := by
  simp [jsub, jadd, jneg, sub_eq_add_neg]

@[simp]
theorem jmul_fin (a b : ℚ) : jmul (fin a) (fin b) = fin (a * b) := rfl

theorem jdiv_fin (a b : ℚ) (hb : b ≠ 0) : jdiv (fin a) (fin b) = fin (a / b) := by
  simp [jdiv, hb]

@[simp]
theorem jgt0_fin (a : ℚ) : jgt0 (fin a) = decide (0 < a) := rfl

@[simp]
theorem jisNaN_fin (a : ℚ) : (fin a).jisNaN = false := rfl
@[simp]
theorem expure {α : Type} (a : α) : (pure a : Except String α) = Except.ok a := rfl

/-- **C1**: in explicit mode, with resolved finite bounds `xMin < xMax`
and positive `steps`, a successful sweep returns exactly `steps + 1`
points; the `i`-th point's x-coordinate is exactly
`xMin + (xMax - xMin) * i / steps` and its y-value is the equation
evaluated at that x (non-finite values pass through unfiltered, since the
loop pushes whatever the evaluator returns); consecutive x-values are
spaced by `(xMax - xMin)/steps` and strictly increase, running from
`xMin` to `xMax` inclusive. -/
theorem C1_explicit_sweep (varsC : List (String × Expr)) (eqE : Expr) (params : Ctx)
    (qxMin qxMax : ℚ) (steps : Int) (pts : List (JNum × JNum))
    (hsteps : 0 < steps) (hlt : qxMin < qxMax)
    (hok : explicitData varsC eqE params (fin qxMin) (fin qxMax) steps = .ok pts) :
    ((pts.length : Int) = steps + 1) ∧
    (∀ i (h1 : i < pts.length),
      (pts.get ⟨i, h1⟩).1 = fin (qxMin + (qxMax - qxMin) * i / steps) ∧
      pointEval varsC eqE params (fin (qxMin + (qxMax - qxMin) * i / steps)) =
        .ok (pts.get ⟨i, h1⟩).2) ∧
    (∀ i (h1 : i + 1 < pts.length) (h2 : i < pts.length),
      jsub (pts.get ⟨i + 1, h1⟩).1 (pts.get ⟨i, h2⟩).1 = fin ((qxMax - qxMin) / steps) ∧
      jlt (pts.get ⟨i, h2⟩).1 (pts.get ⟨i + 1, h1⟩).1 = true) ∧
    ((pts.getD 0 (nan, nan)).1 = fin qxMin) ∧
    ((pts.getD (pts.length - 1) (nan, nan)).1 = fin qxMax) := by
  have hq : (steps : ℚ) ≠ 0 := by
    exact_mod_cast (Int.ne_of_gt hsteps)
  unfold explicitData at hok
  obtain ⟨hlen, hget⟩ := exmapM_ok_spec (List.range (steps + 1).toNat)
    (fun i => do
      let x := jadd (fin qxMin) (jdiv (jmul (jsub (fin qxMax) (fin qxMin)) (fin (i : ℚ)))
        (fin (steps : ℚ)))
      let y ← pointEval varsC eqE params x
      pure (x, y)) pts hok
  rw [List.length_range] at hlen
  have hlenInt : (pts.length : Int) = steps + 1 := by
    rw [hlen]
    omega
  -- pointwise characterization
  have hpoint : ∀ i (h1 : i < pts.length),
      (pts.get ⟨i, h1⟩).1 = fin (qxMin + (qxMax - qxMin) * i / steps) ∧
      pointEval varsC eqE params (fin (qxMin + (qxMax - qxMin) * i / steps)) =
        .ok (pts.get ⟨i, h1⟩).2 := by
    intro i h1
    have h1r : i < (List.range (steps + 1).toNat).length := by
      rw [List.length_range]
      omega
    have hf := hget i h1r h1
    rw [List.get_eq_getElem, List.getElem_range] at hf
    dsimp only [] at hf
    -- hf : (do x := ...; y ← pointEval ...; pure (x, y)) = .ok (pts.get ⟨i, h1⟩)
    have hx : jadd (fin qxMin) (jdiv (jmul (jsub (fin qxMax) (fin qxMin)) (fin (i : ℚ)))
        (fin (steps : ℚ))) = fin (qxMin + (qxMax - qxMin) * i / steps) := by
      rw [jsub_fin, jmul_fin, jdiv_fin _ _ hq, jadd_fin]
    rw [hx] at hf
    cases hy : pointEval varsC eqE params (fin (qxMin + (qxMax - qxMin) * i / steps)) with
    | error m => rw [hy] at hf; cases hf
    | ok y =>
      rw [hy] at hf
      simp only [exbind_ok, expure, Except.ok.injEq] at hf
      rw [← hf]
      exact ⟨rfl, rfl⟩
  refine ⟨hlenInt, hpoint, ?_, ?_, ?_⟩
  · intro i h1 h2
    obtain ⟨hxi, _⟩ := hpoint i h2
    obtain ⟨hxi1, _⟩ := hpoint (i + 1) h1
    constructor
    · rw [hxi, hxi1, jsub_fin]
      congr 1
      push_cast
      field_simp
      ring
    · rw [hxi, hxi1]
      simp only [JNum.jlt]
      rw [decide_eq_true_iff]
      have hpos : (0 : ℚ) < (qxMax - qxMin) / steps := by
        apply div_pos (sub_pos.mpr hlt)
        exact_mod_cast hsteps
      have : qxMin + (qxMax - qxMin) * (i + 1 : ℕ) / steps
          - (qxMin + (qxMax - qxMin) * i / steps) = (qxMax - qxMin) / steps := by
        push_cast
        field_simp
        ring
      linarith [this]
  · have h0 : 0 < pts.length := by omega
    rw [List.getD_eq_getElem?_getD]
    rw [List.getElem?_eq_getElem h0]
    obtain ⟨hx0, _⟩ := hpoint 0 h0
    simp only [Option.getD_some]
    rw [show pts[0] = pts.get ⟨0, h0⟩ from rfl, hx0]
    norm_num
  · have hlast : pts.length - 1 < pts.length := by omega
    rw [List.getD_eq_getElem?_getD]
    rw [List.getElem?_eq_getElem hlast]
    obtain ⟨hxl, _⟩ := hpoint (pts.length - 1) hlast
    simp only [Option.getD_some]
    rw [show pts[pts.length - 1] = pts.get ⟨pts.length - 1, hlast⟩ from rfl, hxl]
    have hcast : ((pts.length - 1 : ℕ) : ℚ) = (steps : ℚ) := by
      have h2 : pts.length - 1 = (steps : Int).toNat := by omega
      rw [h2]
      exact_mod_cast Int.toNat_of_nonneg (le_of_lt hsteps)
    rw [hcast]
    congr 1
    field_simp

/-- The curve of the C1 witness: `y = 5` on `[0,2]` with 2 steps. -/
def c1pts : List (JNum × JNum) := [(fin 0, fin 5), (fin 1, fin 5), (fin 2, fin 5)]

/-- Witness for C1 at the concrete sweep `y = 5`, `x ∈ [0,2]`, 2 steps. -/
theorem C1_explicit_sweep_witness :
    ((c1pts.length : Int) = 2 + 1) ∧
    (∀ i (h1 : i < c1pts.length),
      (c1pts.get ⟨i, h1⟩).1 = fin (0 + (2 - 0) * i / 2) ∧
      pointEval [] (Expr.num 5) [] (fin (0 + (2 - 0) * i / 2)) = .ok (c1pts.get ⟨i, h1⟩).2) ∧
    (∀ i (h1 : i + 1 < c1pts.length) (h2 : i < c1pts.length),
      jsub (c1pts.get ⟨i + 1, h1⟩).1 (c1pts.get ⟨i, h2⟩).1 = fin ((2 - 0) / 2) ∧
      jlt (c1pts.get ⟨i, h2⟩).1 (c1pts.get ⟨i + 1, h1⟩).1 = true) ∧
    ((c1pts.getD 0 (nan, nan)).1 = fin 0) ∧
    ((c1pts.getD (c1pts.length - 1) (nan, nan)).1 = fin 2) :=
  C1_explicit_sweep [] (Expr.num 5) [] 0 2 2 c1pts (by decide) (by norm_num)
    (by with_unfolding_all rfl)

/-- Reading any node of an all-NaN sample array gives NaN. -/
theorem gridAt_const_nan (a b : ℕ) :
    gridAt ((List.range (gridRows * gridRows)).map (fun _ => nan)) a b = nan := by
  unfold gridAt
  by_cases h : b * gridRows + a < gridRows * gridRows
  · rw [getD_map_range _ _ _ _ h]
  · rw [List.getD_eq_getElem?_getD, List.getElem?_eq_none, Option.getD_none]
    simpa using Nat.le_of_not_lt h

/-- Marching Squares over an all-NaN sample array emits nothing (every
cell is skipped by the NaN-corner test). -/
theorem marchingSquares_const_nan (xMin yMin dx dy : JNum) :
    marchingSquares ((List.range (gridRows * gridRows)).map (fun _ => nan)) xMin yMin dx dy = [] := by
  unfold marchingSquares
  rw [List.flatMap_eq_nil_iff]
  intro j _
  rw [List.flatMap_eq_nil_iff]
  intro i _
  dsimp only []
  rw [gridAt_const_nan, gridAt_const_nan, gridAt_const_nan, gridAt_const_nan]
  rfl

/-- The implicit run of `foo = 0` over the default bounds: every sampled
node is NaN (the inner catch turns the `ReferenceError` into NaN), so the
contour is empty — and no error escapes. -/
theorem fooImplicitData :
    implicitData [] (Expr.esub (Expr.ident "foo") (Expr.num 0)) []
      (fin (-10)) (fin 10) (fin (-10)) (fin 10) = .ok [] := by
  unfold implicitData
  dsimp only []
  have hgrid : gridSample [] (Expr.esub (Expr.ident "foo") (Expr.num 0)) []
      (fin (-10)) (fin (-10))
      (jdiv (jsub (fin 10) (fin (-10))) (fin (gridSize : ℚ)))
      (jdiv (jsub (fin 10) (fin (-10))) (fin (gridSize : ℚ))) =
      .ok ((List.range (gridRows * gridRows)).map (fun _ => nan)) := by
    unfold gridSample
    apply exmapM_ok_of
    intro k _
    rfl
  rw [hgrid]
  simp only [exbind_ok, expure]
  rw [marchingSquares_const_nan]

/-- Constructor form of a successful implicit-mode run: when the variable
block and the diff equation compile and the implicit pipeline succeeds,
the engine returns the scatter configuration with the resolved bounds. -/
theorem generateChartConfig_implicit_ok (compile : String → Except String Expr)
    (bp : PlotBlueprint) (params : Ctx) (varsC : List (String × Expr)) (diffE : Expr)
    (pts : List (JNum × JNum))
    (him : bp.equation.toList.any (· = '=') = true)
    (hv : bp.vars.mapM (fun nv => do
      let e ← compile nv.2
      pure (nv.1, e)) = .ok varsC)
    (hc : compile (diffEquationStr bp.equation) = .ok diffE)
    (hd : implicitData varsC diffE params
      (resolveBound bp.axis.x "min" (fin (-10))) (resolveBound bp.axis.x "max" (fin 10))
      (resolveBound bp.axis.y "min" (fin (-10))) (resolveBound bp.axis.y "max" (fin 10)) =
      .ok pts) :
    generateChartConfig compile bp params =
      .ok { typ := ChartType.scatter, data := pts,
            label := if bp.title = "" then "Plot" else bp.title,
            borderColor := bp.color,
            xMin := resolveBound bp.axis.x "min" (fin (-10)),
            xMax := resolveBound bp.axis.x "max" (fin 10),
            yMin := resolveBound bp.axis.y "min" (fin (-10)),
            yMax := resolveBound bp.axis.y "max" (fin 10) } := by
  unfold generateChartConfig
  simp only [hv, exbind_ok]
  simp only [him, if_true]
  simp only [hc, exbind_ok]
  simp only [hd, exbind_ok]
  simp only [expure]

/-- **C2** (counterexample): in implicit mode an equation referencing the
undeclared identifier `foo` does *not* fail with an `EquationError`.  The
generated evaluator wraps the diff expression in
`try { ... } catch { return NaN }`, so the `ReferenceError` becomes NaN at
every node and the call returns an ordinary (empty) scatter series. -/
theorem C2_counterexample :
    evalExpr (baseCtx2D [] (fin (-10)) (fin (-10))) (Expr.esub (Expr.ident "foo") (Expr.num 0)) =
      .error "foo is not defined" ∧
    generateChartConfig fooCompile fooBp [] =
      .ok { typ := ChartType.scatter, data := [], label := "Plot",
            borderColor := "rgb(255, 149, 0)", xMin := fin (-10), xMax := fin 10,
            yMin := fin (-10), yMax := fin 10 } :=
  ⟨rfl, generateChartConfig_implicit_ok fooCompile fooBp [] []
    (Expr.esub (Expr.ident "foo") (Expr.num 0)) [] (by decide) rfl rfl fooImplicitData⟩

/-- **C2** (amended): the engine aborts the whole pass with
`Equation Error: <original message>` and returns no partial series when
(1) any variable expression fails to compile (syntax error, both modes),
(2) the equation fails to compile in explicit mode,
(3) the constructed diff body fails to compile in implicit mode,
(4) the explicit-mode sweep hits a runtime error (e.g. an undeclared
identifier) at any sample index, or
(5) the implicit-mode variable prelude hits a runtime error at any grid
node.  But (6): a runtime error raised by the *diff equation itself* in
implicit mode is caught per sample and becomes NaN — the call does not
fail (see the counterexample). -/
theorem C2_error_handling_amended (compile : String → Except String Expr)
    (bp : PlotBlueprint) (params : Ctx) :
    (∀ m, bp.vars.mapM (fun nv => do
        let e ← compile nv.2
        pure (nv.1, e)) = .error m →
      generateChartConfig compile bp params = .error ("Equation Error: " ++ m)) ∧
    (∀ varsC m, bp.vars.mapM (fun nv => do
        let e ← compile nv.2
        pure (nv.1, e)) = .ok varsC →
      bp.equation.toList.any (· = '=') = false → compile bp.equation = .error m →
      generateChartConfig compile bp params = .error ("Equation Error: " ++ m)) ∧
    (∀ varsC m, bp.vars.mapM (fun nv => do
        let e ← compile nv.2
        pure (nv.1, e)) = .ok varsC →
      bp.equation.toList.any (· = '=') = true →
      compile (diffEquationStr bp.equation) = .error m →
      generateChartConfig compile bp params = .error ("Equation Error: " ++ m)) ∧
    (∀ varsC eqE i m, bp.vars.mapM (fun nv => do
        let e ← compile nv.2
        pure (nv.1, e)) = .ok varsC →
      bp.equation.toList.any (· = '=') = false → compile bp.equation = .ok eqE →
      i < (bp.steps + 1).toNat →
      pointEval varsC eqE params
        (jadd (resolveBound bp.axis.x "min" (fin (-10)))
          (jdiv (jmul (jsub (resolveBound bp.axis.x "max" (fin 10))
              (resolveBound bp.axis.x "min" (fin (-10)))) (fin (i : ℚ)))
            (fin (bp.steps : ℚ)))) = .error m →
      ∃ m2, generateChartConfig compile bp params = .error ("Equation Error: " ++ m2)) ∧
    (∀ varsC diffE k m, bp.vars.mapM (fun nv => do
        let e ← compile nv.2
        pure (nv.1, e)) = .ok varsC →
      bp.equation.toList.any (· = '=') = true →
      compile (diffEquationStr bp.equation) = .ok diffE →
      k < gridRows * gridRows →
      nodeVal varsC diffE params
        (jadd (resolveBound bp.axis.x "min" (fin (-10)))
          (jmul (fin ((k % gridRows : ℕ) : ℚ))
            (jdiv (jsub (resolveBound bp.axis.x "max" (fin 10))
              (resolveBound bp.axis.x "min" (fin (-10)))) (fin (gridSize : ℚ)))))
        (jadd (resolveBound bp.axis.y "min" (fin (-10)))
          (jmul (fin ((k / gridRows : ℕ) : ℚ))
            (jdiv (jsub (resolveBound bp.axis.y "max" (fin 10))
              (resolveBound bp.axis.y "min" (fin (-10)))) (fin (gridSize : ℚ))))) = .error m →
      ∃ m2, generateChartConfig compile bp params = .error ("Equation Error: " ++ m2)) ∧
    (∀ varsC diffE ctx2 px py m,
      evalVars (baseCtx2D params px py) varsC = .ok ctx2 →
      evalExpr ctx2 diffE = .error m →
      nodeVal varsC diffE params px py = .ok nan) := by
  refine ⟨?_, ?_, ?_, ?_, ?_, ?_⟩
  · intro m hm
    unfold generateChartConfig
    simp only [hm, exbind_error]
  · intro varsC m hv hany hc
    unfold generateChartConfig
    simp only [hv, exbind_ok]
    simp only [hany, Bool.false_eq_true, if_false]
    simp only [hc, exbind_error]
  · intro varsC m hv hany hc
    unfold generateChartConfig
    simp only [hv, exbind_ok]
    simp only [hany, if_true]
    simp only [hc, exbind_error]
  · intro varsC eqE i m hv hany hc hi hp
    obtain ⟨m2, herr⟩ := exmapM_error_of_mem (List.range (bp.steps + 1).toNat)
      (fun (i : ℕ) => do
        let x := jadd (resolveBound bp.axis.x "min" (fin (-10)))
          (jdiv (jmul (jsub (resolveBound bp.axis.x "max" (fin 10))
              (resolveBound bp.axis.x "min" (fin (-10)))) (fin (i : ℚ)))
            (fin (bp.steps : ℚ)))
        let y ← pointEval varsC eqE params x
        pure (x, y)) i m (List.mem_range.mpr hi)
      (by dsimp only []; rw [hp]; rfl)
    refine ⟨m2, ?_⟩
    unfold generateChartConfig
    simp only [hv, exbind_ok]
    simp only [hany, Bool.false_eq_true, if_false]
    simp only [hc, exbind_ok]
    have hexp : explicitData varsC eqE params
        (resolveBound bp.axis.x "min" (fin (-10)))
        (resolveBound bp.axis.x "max" (fin 10)) bp.steps = .error m2 := herr
    simp only [hexp, exbind_error]
  · intro varsC diffE k m hv hany hc hk hn
    obtain ⟨m2, herr⟩ := exmapM_error_of_mem (List.range (gridRows * gridRows))
      (fun k => nodeVal varsC diffE params
        (jadd (resolveBound bp.axis.x "min" (fin (-10)))
          (jmul (fin ((k % gridRows : ℕ) : ℚ))
            (jdiv (jsub (resolveBound bp.axis.x "max" (fin 10))
              (resolveBound bp.axis.x "min" (fin (-10)))) (fin (gridSize : ℚ)))))
        (jadd (resolveBound bp.axis.y "min" (fin (-10)))
          (jmul (fin ((k / gridRows : ℕ) : ℚ))
            (jdiv (jsub (resolveBound bp.axis.y "max" (fin 10))
              (resolveBound bp.axis.y "min" (fin (-10)))) (fin (gridSize : ℚ))))))
      k m (List.mem_range.mpr hk) hn
    refine ⟨m2, ?_⟩
    unfold generateChartConfig
    simp only [hv, exbind_ok]
    simp only [hany, if_true]
    simp only [hc, exbind_ok]
    have himp : implicitData varsC diffE params
        (resolveBound bp.axis.x "min" (fin (-10)))
        (resolveBound bp.axis.x "max" (fin 10))
        (resolveBound bp.axis.y "min" (fin (-10)))
        (resolveBound bp.axis.y "max" (fin 10)) = .error m2 := by
      unfold implicitData
      dsimp only []
      have hgs : gridSample varsC diffE params
          (resolveBound bp.axis.x "min" (fin (-10)))
          (resolveBound bp.axis.y "min" (fin (-10)))
          (jdiv (jsub (resolveBound bp.axis.x "max" (fin 10))
            (resolveBound bp.axis.x "min" (fin (-10)))) (fin (gridSize : ℚ)))
          (jdiv (jsub (resolveBound bp.axis.y "max" (fin 10))
            (resolveBound bp.axis.y "min" (fin (-10)))) (fin (gridSize : ℚ))) = .error m2 := herr
      simp only [hgs, exbind_error]
    simp only [himp, exbind_error]
  · intro varsC diffE ctx2 px py m hvars hdiff
    unfold nodeVal
    simp only [hvars, exbind_ok, hdiff]
    rfl

/-- Witness blueprint whose variable text does not compile. -/
def c2wBadVars : PlotBlueprint := { equation := "x", vars := [("V", "oops(")] }

/-- Witness blueprint with an undeclared identifier in explicit mode. -/
def c2wRefBp : PlotBlueprint := { equation := "zoo", steps := 1 }

/-- Compile oracle for `c2wRefBp`. -/
def c2wRefCompile : String → Except String Expr := fun s =>
  if s = "zoo" then .ok (Expr.ident "zoo") else .error "SyntaxError"

/-- Witness for the amended C2: a syntax error aborts with
`Equation Error`, an undeclared identifier in an explicit equation aborts,
and an undeclared identifier in an implicit diff becomes NaN. -/
theorem C2_error_handling_amended_witness :
    (generateChartConfig (fun _ => .error "SyntaxError") c2wBadVars [] =
      .error ("Equation Error: " ++ "SyntaxError")) ∧
    (∃ m2, generateChartConfig c2wRefCompile c2wRefBp [] =
      .error ("Equation Error: " ++ m2)) ∧
    (nodeVal [] (Expr.ident "foo") [] (fin 0) (fin 0) = .ok nan) :=
  ⟨(C2_error_handling_amended (fun _ => .error "SyntaxError") c2wBadVars []).1
      "SyntaxError" rfl,
   (C2_error_handling_amended c2wRefCompile c2wRefBp []).2.2.2.1
      [] (Expr.ident "zoo") 0 "zoo is not defined" rfl (by decide) rfl (by decide) rfl,
   (C2_error_handling_amended c2wRefCompile c2wRefBp []).2.2.2.2.2
      [] (Expr.ident "foo") (baseCtx2D [] (fin 0) (fin 0)) (fin 0) (fin 0)
      "foo is not defined" rfl rfl⟩

/-- The grid spacing of the `1/x = 1` run over `[0,120]x[0,120]`: `(120-0)/120`. -/
def invDx : JNum := jdiv (jsub (fin 120) (fin 0)) (fin (gridSize : ℚ))

/-- The value the engine samples at flat node `k` of the `1/x = 1` run:
`1/x - 1` at `x = (k mod 121) * dx` (`+Infinity` on the `x = 0` column). -/
def invG (k : ℕ) : JNum :=
  jsub (jdiv (fin 1) (jadd (fin 0) (jmul (fin ((k % gridRows : ℕ) : ℚ)) invDx))) (fin 1)

/-- The full flat sample array of the `1/x = 1` run. -/
def invGrid : List JNum := (List.range (gridRows * gridRows)).map invG

/-- The sampling pass for `1/x = 1` succeeds and produces
`invGrid` (the inner catch never lets an error escape). -/
theorem invGridSample :
    gridSample [] invDiffE [] (fin 0) (fin 0) invDx invDx = .ok invGrid := by
  unfold gridSample invGrid
  apply exmapM_ok_of
  intro k _
  rfl

/-- Reading the sampled array at in-range indices gives `invG`. -/
theorem invGridAt (i j : ℕ) (h : j * gridRows + i < gridRows * gridRows) :
    gridAt invGrid i j = invG (j * gridRows + i) := by
  unfold gridAt invGrid
  rw [getD_map_range _ _ _ _ h]

/-- The cell at `(i,j) = (0,0)` of the `1/x = 1` run: corners
`(+inf, 0, 0, +inf)` give sign code 9, and the two crossing edges emit
`(NaN, 0)` (interpolating against an infinite corner) and `(1, 1)`. -/
theorem invCell :
    cellPoints (gridAt invGrid 0 0) (gridAt invGrid (0+1) 0) (gridAt invGrid (0+1) (0+1))
      (gridAt invGrid 0 (0+1))
      (jadd (fin 0) (jmul (fin ((0:ℕ) : ℚ)) invDx))
      (jadd (jadd (fin 0) (jmul (fin ((0:ℕ) : ℚ)) invDx)) invDx)
      (jadd (fin 0) (jmul (fin ((0:ℕ) : ℚ)) invDx))
      (jadd (jadd (fin 0) (jmul (fin ((0:ℕ) : ℚ)) invDx)) invDx) =
      [(nan, fin 0), (fin 1, fin 1)] := by
  rw [invGridAt 0 0 (by decide), invGridAt 1 0 (by decide),
    invGridAt 1 1 (by decide), invGridAt 0 1 (by decide)]
  with_unfolding_all rfl

/-- Both points of the `(0,0)` cell appear in the extracted contour. -/
theorem invMemPts :
    (((nan, fin 0) : JNum × JNum) ∈ marchingSquares invGrid (fin 0) (fin 0) invDx invDx) ∧
    (((fin 1, fin 1) : JNum × JNum) ∈ marchingSquares invGrid (fin 0) (fin 0) invDx invDx) := by
  have hmem : ∀ p : JNum × JNum, p ∈ [((nan : JNum), (fin 0 : JNum)), (fin 1, fin 1)] →
      p ∈ marchingSquares invGrid (fin 0) (fin 0) invDx invDx := by
    intro p hp
    unfold marchingSquares
    apply List.mem_flatMap.mpr
    refine ⟨0, List.mem_range.mpr (by decide), ?_⟩
    apply List.mem_flatMap.mpr
    refine ⟨0, List.mem_range.mpr (by decide), ?_⟩
    dsimp only []
    rw [invCell]
    exact hp
  exact ⟨hmem _ (by decide), hmem _ (by decide)⟩

/-- The implicit pipeline of the `1/x = 1` run succeeds with the Marching
Squares output over `invGrid`. -/
theorem invImplicitData :
    implicitData [] invDiffE [] (fin 0) (fin 120) (fin 0) (fin 120) =
      .ok (marchingSquares invGrid (fin 0) (fin 0) invDx invDx) := by
  unfold implicitData
  dsimp only []
  rw [show (jdiv (jsub (fin 120) (fin 0)) (fin (gridSize : ℚ))) = invDx from rfl]
  rw [invGridSample]
  rfl

/-- The full engine run for the `1/x = 1` blueprint. -/
theorem invRun :
    generateChartConfig invCompile invBp [] =
      .ok { typ := ChartType.scatter,
            data := marchingSquares invGrid (fin 0) (fin 0) invDx invDx,
            label := "Plot", borderColor := "rgb(255, 149, 0)",
            xMin := fin 0, xMax := fin 120, yMin := fin 0, yMax := fin 120 } :=
  generateChartConfig_implicit_ok invCompile invBp [] [] invDiffE
    (marchingSquares invGrid (fin 0) (fin 0) invDx invDx)
    (by decide) rfl rfl invImplicitData

/-- **C3** (counterexample): a cell whose corners include the non-finite
value `+Infinity` is *not* skipped: the `(0,0)` cell of the `1/x = 1` run
has corners `(+inf, 0, 0, +inf)` (none of them NaN) and contributes two
contour points, one of which, `(1,1)`, reaches the final output of the
engine.  The source skips a cell only on `isNaN`, not on non-finiteness. -/
theorem C3_counterexample :
    gridSample [] invDiffE [] (fin 0) (fin 0) invDx invDx = .ok invGrid ∧
    gridAt invGrid 0 0 = posInf ∧
    (gridAt invGrid 0 0).jisNaN = false ∧
    cellPoints (gridAt invGrid 0 0) (gridAt invGrid (0+1) 0) (gridAt invGrid (0+1) (0+1))
      (gridAt invGrid 0 (0+1))
      (jadd (fin 0) (jmul (fin ((0:ℕ) : ℚ)) invDx))
      (jadd (jadd (fin 0) (jmul (fin ((0:ℕ) : ℚ)) invDx)) invDx)
      (jadd (fin 0) (jmul (fin ((0:ℕ) : ℚ)) invDx))
      (jadd (jadd (fin 0) (jmul (fin ((0:ℕ) : ℚ)) invDx)) invDx) =
      [(nan, fin 0), (fin 1, fin 1)] ∧
    (((fin 1, fin 1) : JNum × JNum) ∈ getData (generateChartConfig invCompile invBp [])) := by
  have h00 : gridAt invGrid 0 0 = posInf := by
    rw [invGridAt 0 0 (by decide)]
    with_unfolding_all rfl
  refine ⟨invGridSample, h00, by rw [h00]; rfl, invCell, ?_⟩
  rw [invRun]
  exact invMemPts.2

/-- **C6** (counterexample): the emitted contour point `(NaN, 0)`, from
interpolating an edge with an infinite corner value in the `1/x = 1`
run, does not lie within the sampling box `[0,120] x [0,120]`. -/
theorem C6_counterexample :
    (((nan, fin 0) : JNum × JNum) ∈ getData (generateChartConfig invCompile invBp [])) ∧
    inBox (fin 0) (fin 120) (fin 0) (fin 120) (nan, fin 0) = false := by
  refine ⟨?_, rfl⟩
  rw [invRun]
  exact invMemPts.1

/-- **C3** (amended): a cell is skipped entirely (contributing no contour
point) exactly when one of its four corner values is NaN; the source tests
`isNaN`, so infinite corner values do *not* cause a skip (see the
counterexample). -/
theorem C3_nan_corner_skip_amended (v0 v1 v2 v3 xL xR yB yT : JNum)
    (h : v0.jisNaN = true ∨ v1.jisNaN = true ∨ v2.jisNaN = true ∨ v3.jisNaN = true) :
    cellPoints v0 v1 v2 v3 xL xR yB yT = [] := by
  unfold cellPoints
  rw [if_pos h]

/-- Witness for the amended C3: a NaN bottom-left corner suppresses the
cell. -/
theorem C3_nan_corner_skip_amended_witness :
    cellPoints nan (fin 1) (fin (-1)) (fin 2) (fin 0) (fin 1) (fin 0) (fin 1) = [] :=
  C3_nan_corner_skip_amended nan (fin 1) (fin (-1)) (fin 2) (fin 0) (fin 1) (fin 0) (fin 1)
    (Or.inl rfl)

/-- With finite endpoint values of differing sign, `getInterp` returns a
finite coordinate lying between its two geometric endpoints (the guard
returns `p1`; otherwise the interpolation parameter lies in `[0,1]`). -/
theorem getInterp_fin_between (p1 p2 v1 v2 : ℚ) (hs : decide (0 < v1) ≠ decide (0 < v2)) :
    ∃ c : ℚ, getInterp (fin p1) (fin p2) (fin v1) (fin v2) = fin c ∧
      min p1 p2 ≤ c ∧ c ≤ max p1 p2 := by
  have hsign : (0 < v1 ∧ v2 ≤ 0) ∨ (v1 ≤ 0 ∧ 0 < v2) := by
    by_cases h1 : 0 < v1
    · by_cases h2 : 0 < v2
      · simp [h1, h2] at hs
      · exact Or.inl ⟨h1, le_of_not_lt h2⟩
    · by_cases h2 : 0 < v2
      · exact Or.inr ⟨le_of_not_lt h1, h2⟩
      · simp [h1, h2] at hs
  have hne : v2 - v1 ≠ 0 := by
    rcases hsign with ⟨h1, h2⟩ | ⟨h1, h2⟩
    · intro hc; nlinarith
    · intro hc; nlinarith
  unfold getInterp
  simp only [jsub_fin]
  simp only [jabs, jlt]
  by_cases hguard : |v1 - v2| < 1 / 1000000
  · rw [if_pos (by simpa using hguard)]
    exact ⟨p1, rfl, min_le_left _ _, le_max_left _ _⟩
  · rw [if_neg (by simpa using hguard)]
    rw [jdiv_fin _ _ hne, jmul_fin, jadd_fin]
    set mu := (0 - v1) / (v2 - v1) with hmu
    have hmu0 : 0 ≤ mu := by
      rw [hmu]
      rcases hsign with ⟨h1, h2⟩ | ⟨h1, h2⟩
      · exact div_nonneg_of_nonpos (by nlinarith) (by nlinarith)
      · exact div_nonneg (by nlinarith) (by nlinarith)
    have hmu1 : mu ≤ 1 := by
      rcases hsign with ⟨h1, h2⟩ | ⟨h1, h2⟩
      · have heq : mu = v1 / (v1 - v2) := by
          rw [hmu, div_eq_div_iff hne (by nlinarith : v1 - v2 ≠ 0)]
          ring
        rw [heq, div_le_one (by nlinarith)]
        nlinarith
      · rw [hmu, div_le_one (by nlinarith)]
        nlinarith
    refine ⟨p1 + mu * (p2 - p1), rfl, ?_, ?_⟩
    · rcases le_total p1 p2 with hle | hle
      · rw [min_eq_left hle]; nlinarith
      · rw [min_eq_right hle]; nlinarith
    · rcases le_total p1 p2 with hle | hle
      · rw [max_eq_right hle]; nlinarith
      · rw [max_eq_left hle]; nlinarith

/-- Box membership for finite coordinates within the bounds. -/
theorem inBox_fin (qxMin qxMax qyMin qyMax cx cy : ℚ)
    (h1 : qxMin ≤ cx) (h2 : cx ≤ qxMax) (h3 : qyMin ≤ cy) (h4 : cy ≤ qyMax) :
    inBox (fin qxMin) (fin qxMax) (fin qyMin) (fin qyMax) (fin cx, fin cy) = true := by
  simp [inBox, jle, h1, h2, h3, h4]

/-- A member of `if c then L else []` is a member of `L`. -/
theorem mem_ite_nil {α : Type} (c : Prop) (inst : Decidable c) (L : List α) (p : α)
    (hp : p ∈ @ite _ c inst L []) : p ∈ L := by
  by_cases hc : c
  · rwa [if_pos hc] at hp
  · rw [if_neg hc] at hp
    cases hp

/-- Every point a cell with all-finite corners emits lies inside any box
containing the four cell corner coordinates. -/
theorem cellPoints_inBox (a0 a1 a2 a3 xL xR yB yT qxMin qxMax qyMin qyMax : ℚ)
    (hxL1 : qxMin ≤ xL) (hxL2 : xL ≤ qxMax) (hxR1 : qxMin ≤ xR) (hxR2 : xR ≤ qxMax)
    (hyB1 : qyMin ≤ yB) (hyB2 : yB ≤ qyMax) (hyT1 : qyMin ≤ yT) (hyT2 : yT ≤ qyMax) :
    ∀ p ∈ cellPoints (fin a0) (fin a1) (fin a2) (fin a3) (fin xL) (fin xR) (fin yB) (fin yT),
      inBox (fin qxMin) (fin qxMax) (fin qyMin) (fin qyMax) p = true := by
  intro p hp
  have hin : ∀ (c : Prop) (inst : Decidable c) (x : JNum × JNum),
      p ∈ (@ite _ c inst [x] ([] : List (JNum × JNum))) → c ∧ p = x := by
    intro c inst x hmem
    by_cases hc : c
    · rw [if_pos hc] at hmem
      exact ⟨hc, List.mem_singleton.mp hmem⟩
    · rw [if_neg hc] at hmem
      cases hmem
  unfold cellPoints at hp
  rw [if_neg (by simp)] at hp
  dsimp only [] at hp
  have hp2 := mem_ite_nil _ _ _ _ hp
  rcases List.mem_append.mp hp2 with hpABC | hpD
  · rcases List.mem_append.mp hpABC with hpAB | hpC
    · rcases List.mem_append.mp hpAB with hpA | hpB
      · obtain ⟨hg, rfl⟩ := hin _ _ _ hpA
        obtain ⟨c, hc, h5, h6⟩ := getInterp_fin_between xL xR a0 a1 hg
        rw [hc]
        exact inBox_fin _ _ _ _ _ _ (le_trans (le_min hxL1 hxR1) h5)
          (le_trans h6 (max_le hxL2 hxR2)) hyB1 hyB2
      · obtain ⟨hg, rfl⟩ := hin _ _ _ hpB
        obtain ⟨c, hc, h5, h6⟩ := getInterp_fin_between yB yT a1 a2 hg
        rw [hc]
        exact inBox_fin _ _ _ _ _ _ hxR1 hxR2 (le_trans (le_min hyB1 hyT1) h5)
          (le_trans h6 (max_le hyB2 hyT2))
    · obtain ⟨hg, rfl⟩ := hin _ _ _ hpC
      obtain ⟨c, hc, h5, h6⟩ := getInterp_fin_between xR xL a2 a3 hg
      rw [hc]
      exact inBox_fin _ _ _ _ _ _ (le_trans (le_min hxR1 hxL1) h5)
        (le_trans h6 (max_le hxR2 hxL2)) hyT1 hyT2
  · obtain ⟨hg, rfl⟩ := hin _ _ _ hpD
    obtain ⟨c, hc, h5, h6⟩ := getInterp_fin_between yT yB a3 a0 hg
    rw [hc]
    exact inBox_fin _ _ _ _ _ _ hxL1 hxL2 (le_trans (le_min hyT1 hyB1) h5)
      (le_trans h6 (max_le hyT2 hyB2))

/-- **C6** (amended): in implicit mode, when every sampled grid value is
finite, every emitted contour point lies within the sampling box
`[xMin,xMax] x [yMin,yMax]` (bounds resolved finite with `xMin ≤ xMax`,
`yMin ≤ yMax`).  Without the all-finite hypothesis this fails: an
infinite corner can emit a NaN coordinate (see the counterexample). -/
theorem C6_box_amended (vs : List JNum) (qxMin qxMax qyMin qyMax : ℚ)
    (hx : qxMin ≤ qxMax) (hy : qyMin ≤ qyMax)
    (hfin : ∀ k, k < gridRows * gridRows → ∃ q, vs.getD k nan = fin q) :
    ∀ p ∈ marchingSquares vs (fin qxMin) (fin qyMin)
        (jdiv (jsub (fin qxMax) (fin qxMin)) (fin (gridSize : ℚ)))
        (jdiv (jsub (fin qyMax) (fin qyMin)) (fin (gridSize : ℚ))),
      inBox (fin qxMin) (fin qxMax) (fin qyMin) (fin qyMax) p = true := by
  have hg120 : ((gridSize : ℕ) : ℚ) = 120 := by norm_num [gridSize]
  have hdx : jdiv (jsub (fin qxMax) (fin qxMin)) (fin (gridSize : ℚ)) =
      fin ((qxMax - qxMin) / 120) := by
    rw [jsub_fin, jdiv_fin _ _ (by rw [hg120]; norm_num), hg120]
  have hdy : jdiv (jsub (fin qyMax) (fin qyMin)) (fin (gridSize : ℚ)) =
      fin ((qyMax - qyMin) / 120) := by
    rw [jsub_fin, jdiv_fin _ _ (by rw [hg120]; norm_num), hg120]
  intro p hp
  unfold marchingSquares at hp
  obtain ⟨j, hj, hp1⟩ := List.mem_flatMap.mp hp
  obtain ⟨i, hi, hp2⟩ := List.mem_flatMap.mp hp1
  rw [List.mem_range] at hi hj
  have hi120 : i < 120 := by simpa [gridSize] using hi
  have hj120 : j < 120 := by simpa [gridSize] using hj
  dsimp only [] at hp2
  rw [hdx, hdy] at hp2
  simp only [jmul_fin, jadd_fin] at hp2
  have hb : ∀ a b : ℕ, a < 121 → b < 121 → b * gridRows + a < gridRows * gridRows := by
    intro a b ha hb2
    simp only [gridRows, gridSize]
    omega
  obtain ⟨q0, hq0⟩ := hfin (j * gridRows + i) (hb i j (by omega) (by omega))
  obtain ⟨q1, hq1⟩ := hfin (j * gridRows + (i + 1)) (hb (i + 1) j (by omega) (by omega))
  obtain ⟨q2, hq2⟩ := hfin ((j + 1) * gridRows + (i + 1)) (hb (i + 1) (j + 1) (by omega) (by omega))
  obtain ⟨q3, hq3⟩ := hfin ((j + 1) * gridRows + i) (hb i (j + 1) (by omega) (by omega))
  unfold gridAt at hp2
  rw [hq0, hq1, hq2, hq3] at hp2
  set ddx := (qxMax - qxMin) / 120 with hddx
  set ddy := (qyMax - qyMin) / 120 with hddy
  have hddx0 : 0 ≤ ddx := div_nonneg (sub_nonneg.mpr hx) (by norm_num)
  have hddy0 : 0 ≤ ddy := div_nonneg (sub_nonneg.mpr hy) (by norm_num)
  have hkeyx : qxMin + 120 * ddx = qxMax := by
    rw [hddx]
    field_simp
  have hkeyy : qyMin + 120 * ddy = qyMax := by
    rw [hddy]
    field_simp
  have hiq : ((i : ℚ) + 1) ≤ 120 := by
    have : (i : ℚ) + 1 ≤ 120 ↔ i + 1 ≤ 120 := by exact_mod_cast Iff.rfl
    rw [this]
    omega
  have hjq : ((j : ℚ) + 1) ≤ 120 := by
    have : (j : ℚ) + 1 ≤ 120 ↔ j + 1 ≤ 120 := by exact_mod_cast Iff.rfl
    rw [this]
    omega
  have hiq0 : (0 : ℚ) ≤ (i : ℚ) := Nat.cast_nonneg i
  have hjq0 : (0 : ℚ) ≤ (j : ℚ) := Nat.cast_nonneg j
  refine cellPoints_inBox q0 q1 q2 q3 _ _ _ _ _ _ _ _ ?_ ?_ ?_ ?_ ?_ ?_ ?_ ?_ p hp2
  · nlinarith
  · nlinarith
  · nlinarith
  · nlinarith
  · nlinarith
  · nlinarith
  · nlinarith
  · nlinarith

/-- Witness grid: `-1/2` on the first column, `1/2` elsewhere. -/
def boxG (k : ℕ) : JNum := fin (if k % gridRows = 0 then -1/2 else 1/2)

/-- The witness grid as a flat sample array. -/
def boxGrid : List JNum := (List.range (gridRows * gridRows)).map boxG

/-- The witness grid emits the point `(1/2, 0)` from its `(0,0)` cell. -/
theorem boxGridMem :
    ((fin (1/2), fin 0) : JNum × JNum) ∈ marchingSquares boxGrid (fin 0) (fin 0)
      (jdiv (jsub (fin 120) (fin 0)) (fin (gridSize : ℚ)))
      (jdiv (jsub (fin 120) (fin 0)) (fin (gridSize : ℚ))) := by
  unfold marchingSquares
  apply List.mem_flatMap.mpr
  refine ⟨0, List.mem_range.mpr (by decide), ?_⟩
  apply List.mem_flatMap.mpr
  refine ⟨0, List.mem_range.mpr (by decide), ?_⟩
  dsimp only []
  have h00 : gridAt boxGrid 0 0 = fin (-1/2) := by
    unfold gridAt boxGrid
    rw [getD_map_range _ _ _ _ (by decide)]
    rfl
  have h10 : gridAt boxGrid (0+1) 0 = fin (1/2) := by
    unfold gridAt boxGrid
    rw [getD_map_range _ _ _ _ (by decide)]
    rfl
  have h11 : gridAt boxGrid (0+1) (0+1) = fin (1/2) := by
    unfold gridAt boxGrid
    rw [getD_map_range _ _ _ _ (by decide)]
    rfl
  have h01 : gridAt boxGrid 0 (0+1) = fin (-1/2) := by
    unfold gridAt boxGrid
    rw [getD_map_range _ _ _ _ (by decide)]
    rfl
  rw [h00, h10, h11, h01]
  have hcell : cellPoints (fin (-1/2)) (fin (1/2)) (fin (1/2)) (fin (-1/2))
      (jadd (fin 0) (jmul (fin ((0:ℕ) : ℚ)) (jdiv (jsub (fin 120) (fin 0)) (fin (gridSize : ℚ)))))
      (jadd (jadd (fin 0) (jmul (fin ((0:ℕ) : ℚ))
        (jdiv (jsub (fin 120) (fin 0)) (fin (gridSize : ℚ)))))
        (jdiv (jsub (fin 120) (fin 0)) (fin (gridSize : ℚ))))
      (jadd (fin 0) (jmul (fin ((0:ℕ) : ℚ)) (jdiv (jsub (fin 120) (fin 0)) (fin (gridSize : ℚ)))))
      (jadd (jadd (fin 0) (jmul (fin ((0:ℕ) : ℚ))
        (jdiv (jsub (fin 120) (fin 0)) (fin (gridSize : ℚ)))))
        (jdiv (jsub (fin 120) (fin 0)) (fin (gridSize : ℚ)))) =
      [(fin (1/2), fin 0), (fin (1/2), fin 1)] := by
    with_unfolding_all rfl
  rw [hcell]
  simp

/-- Witness for the amended C6: the emitted point `(1/2, 0)` of the
witness grid lies inside `[0,120] x [0,120]`. -/
theorem C6_box_amended_witness :
    inBox (fin 0) (fin 120) (fin 0) (fin 120) ((fin (1/2), fin 0) : JNum × JNum) = true :=
  C6_box_amended boxGrid 0 120 0 120 (by norm_num) (by norm_num)
    (fun k hk => ⟨(if k % gridRows = 0 then -1/2 else 1/2), by
      unfold boxGrid
      rw [getD_map_range _ _ _ _ hk]
      rfl⟩) _ boxGridMem

/-- Over finite rational inputs, the source interpolation `getInterp`
computes exactly the formula the claim states: `p1 + (0 - v1)/(v2 - v1) * (p2 - p1)`,
returning `p1` when the denominator magnitude is below `1e-6`. -/
theorem getInterp_fin_eq_spec (p1 p2 v1 v2 : ℚ) :
    getInterp (fin p1) (fin p2) (fin v1) (fin v2) = fin (specInterp p1 p2 v1 v2) := by
  unfold getInterp specInterp
  simp only [jsub_fin, jabs, jlt]
  by_cases hg : |v1 - v2| < 1/1000000
  · rw [if_pos (by simpa using hg), if_pos hg]
  · have hne : v2 - v1 ≠ 0 := by
      intro hc
      apply hg
      have hv : v1 = v2 := by linarith
      simp [hv]
    rw [if_neg (by simpa using hg), if_neg hg, jdiv_fin _ _ hne, jmul_fin, jadd_fin]

/-- Over cells with four finite corner values, the source per-cell step
agrees with the wording of the claim (`cellPointsSpec`): same 4-bit sign
code (bit per corner `> 0`, order BL, BR, TR, TL), nothing for codes 0
and 15, and one interpolated crossing point per sign-changing edge. -/
theorem cellPoints_eq_spec (v0 v1 v2 v3 xL xR yB yT : ℚ) :
    cellPoints (fin v0) (fin v1) (fin v2) (fin v3) (fin xL) (fin xR) (fin yB) (fin yT) =
      (cellPointsSpec v0 v1 v2 v3 xL xR yB yT).map (fun ab => (fin ab.1, fin ab.2)) := by
  unfold cellPoints cellPointsSpec
  rw [if_neg (by simp)]
  simp only [jgt0_fin, getInterp_fin_eq_spec]
  by_cases h0 : (0 < v0) <;> by_cases h1 : (0 < v1) <;>
    by_cases h2 : (0 < v2) <;> by_cases h3 : (0 < v3) <;>
    simp [h0, h1, h2, h3]

/-- A conditional singleton list has length at most 1. -/
theorem ite_singleton_length_le {α : Type} (c : Prop) (inst : Decidable c) (x : α) :
    (@ite _ c inst [x] ([] : List α)).length ≤ 1 := by
  by_cases hc : c
  · rw [if_pos hc]
    simp
  · rw [if_neg hc]
    simp

/-- Every cell contributes at most 4 contour points, whatever the corner
values (each of the four edges pushes at most one point). -/
theorem cellPoints_length_le (w0 w1 w2 w3 zL zR zB zT : JNum) :
    (cellPoints w0 w1 w2 w3 zL zR zB zT).length ≤ 4 := by
  unfold cellPoints
  by_cases hnan : (w0.jisNaN = true ∨ w1.jisNaN = true ∨ w2.jisNaN = true ∨ w3.jisNaN = true)
  · rw [if_pos hnan]
    simp
  · rw [if_neg hnan]
    dsimp only []
    cases hw0 : w0.jgt0 <;> cases hw1 : w1.jgt0 <;> cases hw2 : w2.jgt0 <;>
      cases hw3 : w3.jgt0 <;> simp [hw0, hw1, hw2, hw3]

/-- **C4.** In implicit mode the sampling pass fills a flat array of
`gridRows * gridRows = 121 * 121` values, and node `(i, j)` is the diff
expression evaluated at exactly
`(xMin + i*(xMax - xMin)/120, yMin + j*(yMax - yMin)/120)`;
for all-finite corners the per-cell step computes the 4-bit sign code
(bit set iff corner `> 0`, tested in order bottom-left, bottom-right,
top-right, top-left), contributes nothing for codes 0 and 15, and pushes
one linearly interpolated zero-crossing
`p1 + (0 - v1)/(v2 - v1)*(p2 - p1)` (guarded to `p1` when
`|v1 - v2| < 1e-6`) per sign-changing edge — at most 4 points per cell. -/
theorem C4_marching_squares (varsC : List (String × Expr)) (diffE : Expr) (params : Ctx)
    (qxMin qxMax qyMin qyMax : ℚ) (vs : List JNum)
    (hok : gridSample varsC diffE params (fin qxMin) (fin qyMin)
      (jdiv (jsub (fin qxMax) (fin qxMin)) (fin (gridSize : ℚ)))
      (jdiv (jsub (fin qyMax) (fin qyMin)) (fin (gridSize : ℚ))) = .ok vs) :
    (gridRows = 121 ∧ vs.length = gridRows * gridRows) ∧
    (∀ i j : ℕ, i < gridRows → j < gridRows →
      nodeVal varsC diffE params
        (fin (qxMin + i * (qxMax - qxMin) / 120))
        (fin (qyMin + j * (qyMax - qyMin) / 120)) = .ok (gridAt vs i j)) ∧
    (∀ v0 v1 v2 v3 xL xR yB yT : ℚ,
      cellPoints (fin v0) (fin v1) (fin v2) (fin v3) (fin xL) (fin xR) (fin yB) (fin yT) =
        (cellPointsSpec v0 v1 v2 v3 xL xR yB yT).map (fun ab => (fin ab.1, fin ab.2))) ∧
    (∀ w0 w1 w2 w3 zL zR zB zT : JNum,
      (cellPoints w0 w1 w2 w3 zL zR zB zT).length ≤ 4) := by
  have h120 : ((gridSize : ℕ) : ℚ) ≠ 0 := by
    simp only [gridSize]
    norm_num
  have hdx : jdiv (jsub (fin qxMax) (fin qxMin)) (fin (gridSize : ℚ)) =
      fin ((qxMax - qxMin) / 120) := by
    rw [jsub_fin, jdiv_fin _ _ h120]
    simp only [gridSize]
    norm_num
  have hdy : jdiv (jsub (fin qyMax) (fin qyMin)) (fin (gridSize : ℚ)) =
      fin ((qyMax - qyMin) / 120) := by
    rw [jsub_fin, jdiv_fin _ _ h120]
    simp only [gridSize]
    norm_num
  rw [hdx, hdy] at hok
  unfold gridSample at hok
  obtain ⟨hlen, hget⟩ := exmapM_ok_spec (List.range (gridRows * gridRows))
    (fun k => nodeVal varsC diffE params
      (jadd (fin qxMin) (jmul (fin ((k % gridRows : ℕ) : ℚ)) (fin ((qxMax - qxMin) / 120))))
      (jadd (fin qyMin) (jmul (fin ((k / gridRows : ℕ) : ℚ)) (fin ((qyMax - qyMin) / 120)))))
    vs hok
  rw [List.length_range] at hlen
  refine ⟨⟨rfl, hlen⟩, ?_, cellPoints_eq_spec, cellPoints_length_le⟩
  intro i j hi hj
  have hk : j * gridRows + i < gridRows * gridRows := by
    simp only [gridRows, gridSize] at hi hj ⊢
    omega
  have hkv : j * gridRows + i < vs.length := by
    rw [hlen]
    exact hk
  have hkr : j * gridRows + i < (List.range (gridRows * gridRows)).length := by
    rw [List.length_range]
    exact hk
  have hf := hget (j * gridRows + i) hkr hkv
  rw [List.get_eq_getElem, List.getElem_range] at hf
  have hmod : (j * gridRows + i) % gridRows = i := by
    simp only [gridRows, gridSize] at hi ⊢
    omega
  have hdivk : (j * gridRows + i) / gridRows = j := by
    simp only [gridRows, gridSize] at hi ⊢
    omega
  rw [hmod, hdivk, jmul_fin, jadd_fin, jmul_fin, jadd_fin] at hf
  have hxc : qxMin + (i : ℚ) * ((qxMax - qxMin) / 120) = qxMin + i * (qxMax - qxMin) / 120 := by
    ring
  have hyc : qyMin + (j : ℚ) * ((qyMax - qyMin) / 120) = qyMin + j * (qyMax - qyMin) / 120 := by
    ring
  rw [hxc, hyc] at hf
  have hga : gridAt vs i j = vs.get ⟨j * gridRows + i, hkv⟩ := by
    unfold gridAt
    rw [List.getD_eq_getElem?_getD, List.getElem?_eq_getElem hkv]
    rfl
  rw [hga]
  exact hf

/-- Witness for C4: in the `1/x = 1` run over `[0,120]x[0,120]`, the
sampled value stored at node `(5, 7)` of `invGrid` is exactly the diff
evaluated at the claimed coordinates. -/
theorem C4_marching_squares_witness :
    nodeVal [] invDiffE []
      (fin (0 + ((5 : ℕ) : ℚ) * (120 - 0) / 120))
      (fin (0 + ((7 : ℕ) : ℚ) * (120 - 0) / 120)) = .ok (gridAt invGrid 5 7) :=
  (C4_marching_squares [] invDiffE [] 0 120 0 120 invGrid invGridSample).2.1 5 7
    (by decide) (by decide)
